import Mathlib

/-!
Verification of the opnix secret materialization and change-reconciliation
pipeline.  The Go source is embedded shallowly: Go strings become Lean
`String`s manipulated through structural functions on their character lists
(so that everything kernel-evaluates), Go maps become association lists,
filesystem / process-manager effects become oracle parameters, and fallible
Go functions return `Except OpErr`.
-/

set_option maxRecDepth 4000

namespace Opnix

/-! ## Go string primitives (strings package), modelled on character lists -/

/-- Model of Go `strings.Contains` restricted to a fixed pattern: true iff
`pat` occurs as a contiguous substring. -/
def containsSub (pat : List Char) : List Char → Bool
  | [] => pat.isPrefixOf []
  | c :: cs => pat.isPrefixOf (c :: cs) || containsSub pat cs

/-- Model of Go `strings.Contains`. -/
def goContains (s pat : String) : Bool := containsSub pat.data s.data

/-- Model of Go `strings.Split` with a single-character separator (the only
form the source uses). -/
def splitOnChar (sep : Char) : List Char → List (List Char)
  | [] => [[]]
  | c :: cs =>
    match splitOnChar sep cs with
    | [] => [[c]]
    | g :: gs => if c = sep then [] :: g :: gs else (c :: g) :: gs

/-- Split a string on `/`, Go `strings.Split(s, "/")`. -/
def goSplitSlash (s : String) : List String := (splitOnChar '/' s.data).map String.mk

/-- Model of Go `strings.HasPrefix`. -/
def goHasPre (pre s : String) : Bool := pre.data.isPrefixOf s.data

/-- Model of Go `strings.TrimPrefix`. -/
def goTrimPre (pre s : String) : String :=
  if pre.data.isPrefixOf s.data then String.mk (s.data.drop pre.data.length) else s

/-- Model of Go `strings.TrimSpace`. -/
def goTrimSpace (s : String) : String :=
  String.mk (((s.data.dropWhile Char.isWhitespace).reverse.dropWhile Char.isWhitespace).reverse)

/-- One fuelled pass of Go `strings.ReplaceAll` on character lists; the fuel
only pads the non-structural recursion and `goReplaceAll` always supplies
enough of it. -/
def replaceAllF (pat repl : List Char) : Nat → List Char → List Char
  | _, [] => []
  | 0, s => s
  | fuel + 1, c :: cs =>
    if pat ≠ [] ∧ pat.isPrefixOf (c :: cs) then
      repl ++ replaceAllF pat repl fuel ((c :: cs).drop pat.length)
    else
      c :: replaceAllF pat repl fuel cs

/-- Model of Go `strings.ReplaceAll`. -/
def goReplaceAll (s pat repl : String) : String :=
  String.mk (replaceAllF pat.data repl.data s.data.length s.data)

/-- First index of character `c`, Go `strings.Index` with one-character
needle (`-1` becomes `none`). -/
def idxOfChar (c : Char) : List Char → Option Nat
  | [] => none
  | d :: ds => if d = c then some 0 else (idxOfChar c ds).map (· + 1)

/-! ## Association-list models of Go maps keyed by strings -/

/-- Lookup in an association list (first match wins), Go `m[k]` read. -/
def lookupA : List (String × String) → String → Option String
  | [], _ => none
  | p :: rest, k => if p.1 = k then some p.2 else lookupA rest k

/-- Write to an association list, Go `m[k] = v`. -/
def upsertA (m : List (String × String)) (k v : String) : List (String × String) :=
  if m.any (fun p => p.1 = k) then m.map (fun p => if p.1 = k then (k, v) else p)
  else m ++ [(k, v)]

/-- Merge of `defaults` then `variables` into one map, variables winning —
the `allVars` construction both substituters share. -/
def mergeVars (defaults vars : List (String × String)) : List (String × String) :=
  vars.foldl (fun m p => upsertA m p.1 p.2)
    (defaults.foldl (fun m p => upsertA m p.1 p.2) [])

/-! ## The error taxonomy of internal/errors -/

/-- Structured model of the `OpnixError` constructors in
internal/errors/errors.go; each constructor keeps the string arguments the
Go factory function receives. -/
inductive OpErr where
  | configErr (operation issue : String)
  | configValidation (field value issue : String) (suggestions : List String)
  | fileOperation (operation path issue : String)
  | onePassword (operation issue : String)
  | userGroup (operation userOrGroup entityType : String) (available : List String)
  | validationErr (operation field value expectedFormat : String)
  | tokenErr (issue tokenPath : String)
  | serviceErr (operation serviceName action : String)
  | templateErr (operation templateText : String)
  deriving DecidableEq, Repr

/-- Decidable equality for `Except` results, so concrete runs of the models
can be checked by `decide`. -/
instance exceptDecEq {ε α : Type} [DecidableEq ε] [DecidableEq α] :
    DecidableEq (Except ε α) := fun x y =>
  match x, y with
  | .ok a, .ok b =>
    if h : a = b then isTrue (by rw [h]) else isFalse (fun hh => h (Except.ok.inj hh))
  | .error a, .error b =>
    if h : a = b then isTrue (by rw [h]) else isFalse (fun hh => h (Except.error.inj hh))
  | .ok _, .error _ => isFalse (fun hh => Except.noConfusion hh)
  | .error _, .ok _ => isFalse (fun hh => Except.noConfusion hh)

/-! ## Manifest validator (internal/validation) -/

namespace validation

/-- Model of `validation.SecretData`, one secret as the validator sees it.
The dynamically typed `Services` field is a sum (`SVal`), see §9 of the
design notes. -/
inductive SVal where
  | str (s : String)
  | boolv (b : Bool)
  | arr (xs : List SVal)
  | obj (fields : List (String × SVal))
  | other

structure SecretData where
  path : String
  reference : String
  owner : String
  group : String
  mode : String
  symlinks : List String
  vars : List (String × String)
  services : Option SVal
  pathTemplate : String
  defaults : List (String × String)

/-- Host account database backing `os/user` lookups and the suggestion
scans over `/etc/passwd` and `/etc/group`. -/
structure Env where
  users : List String
  groups : List String
  passwdNames : List String
  groupNames : List String

/-- Names until the first closing brace, with the remainder after it; the
helper behind the model of the `\x7b([^\x7d]+)\x7d` scan. -/
def takeToRBrace : List Char → Option (List Char × List Char)
  | [] => none
  | c :: cs =>
    if c = '}' then some ([], cs)
    else
      match takeToRBrace cs with
      | none => none
      | some (seg, rest) => some (c :: seg, rest)

/-- Fuelled scan for the regexp `\x7b([^\x7d]+)\x7d`: the list of matched
variable names, leftmost first, non-overlapping.  Every step consumes at
least one character, so fuel = length is always enough. -/
def scanVarsF : Nat → List Char → List String
  | 0, _ => []
  | _, [] => []
  | fuel + 1, c :: cs =>
    if c = '{' then
      match takeToRBrace cs with
      | none => []
      | some ([], _) => scanVarsF fuel cs
      | some (seg, rest) => String.mk seg :: scanVarsF fuel rest
    else scanVarsF fuel cs

/-- All template variables `\x7bvarname\x7d` of a template, the model of
`varPattern.FindAllStringSubmatch(template, -1)`. -/
def scanVars (templateText : String) : List String :=
  scanVarsF templateText.data.length templateText.data

/-- The shell metacharacters `validateVariableValue` rejects. -/
def dangerousChars : List String := [";", "&", "|", "$", "\x60", "(", ")", "<", ">"]

/-- Model of `Validator.validateVariableValue` (validation package): reject
`..` and shell metacharacters in a substituted value. -/
def validateVariableValue (value varName secretName : String) : Except OpErr Unit :=
  if goContains value ".." then
    .error (.configValidation (secretName ++ ".variables." ++ varName) value
      "Variable value contains path traversal attempt (..)"
      ["Remove \x27..\x27 from the variable value",
       "Use clean directory/file names without path traversal"])
  else
    match dangerousChars.find? (fun c => goContains value c) with
    | some c =>
      .error (.configValidation (secretName ++ ".variables." ++ varName) value
        ("Variable value contains potentially dangerous character: " ++ c)
        ["Use only alphanumeric characters, hyphens, and underscores in variable values",
         "Avoid shell metacharacters for security"])
    | none => .ok ()

/-- Space-separated rendering of a string list, Go `fmt %v`. -/
def joinSp : List String → String
  | [] => ""
  | [x] => x
  | x :: xs => x ++ " " ++ joinSp xs

/-- Loop body of `Validator.substituteVariables`: walk the matches of the
original template, resolving and vetting each variable, replacing all
occurrences in the accumulated result. -/
def substLoop (allVars : List (String × String)) (secretName templateText : String) :
    List String → String → Except OpErr String
  | [], result => .ok result
  | varName :: rest, result =>
    match lookupA allVars varName with
    | none =>
      .error (.configValidation (secretName ++ " template variable") varName
        ("Template variable \x27\x7b" ++ varName ++ "\x7d\x27 not found in variables or defaults")
        (["Add \x27" ++ varName ++ "\x27 to the secret\x27s variables",
          "Or add \x27" ++ varName ++ "\x27 to config defaults",
          "Template: " ++ templateText] ++
         ["Available variables: [" ++ joinSp (allVars.map (·.1)) ++ "]"]))
    | some value =>
      match validateVariableValue value varName secretName with
      | .error e => .error e
      | .ok _ => substLoop allVars secretName templateText rest
          (goReplaceAll result ("\x7b" ++ varName ++ "\x7d") value)

/-- Model of `Validator.substituteVariables` (validation package). -/
def substituteVariables (templateText : String) (vars defaults : List (String × String))
    (secretName : String) : Except OpErr String :=
  substLoop (mergeVars defaults vars) secretName templateText (scanVars templateText) templateText

/-- Model of `Validator.resolvePath`. -/
def resolvePath (path pathTemplate : String) (vars defaults : List (String × String))
    (secretName : String) : Except OpErr String :=
  if path ≠ "" then substituteVariables path vars defaults secretName
  else if pathTemplate = "" then
    .error (.configValidation (secretName ++ ".path") "<empty>"
      "Path cannot be empty and no pathTemplate is configured"
      ["Specify a path directly in the secret configuration",
       "Or configure a pathTemplate at the config level",
       "Example template: /etc/secrets/\x7bservice\x7d/\x7bname\x7d"])
  else substituteVariables pathTemplate vars defaults secretName

/-- The denylist of sensitive absolute path locations. -/
def dangerousPaths : List String :=
  ["/bin", "/sbin", "/usr/bin", "/usr/sbin",
   "/boot", "/dev", "/proc", "/sys",
   "/etc/passwd", "/etc/shadow", "/etc/group"]

/-- Model of `Validator.validateAbsolutePath`. -/
def validateAbsolutePath (path secretName : String) : Except OpErr Unit :=
  match dangerousPaths.find? (fun d => goHasPre d path) with
  | some dangerous =>
    .error (.configValidation (secretName ++ ".path") path
      ("Path starts with potentially dangerous location: " ++ dangerous)
      ["Avoid placing secrets in system directories",
       "Use /etc/secrets/, /var/lib/opnix/secrets/, or /run/secrets/ instead",
       "Consider using relative paths under the configured output directory"])
  | none => .ok ()

/-- Model of `Validator.validatePath`: empty check, traversal check,
duplicate check against `seenPaths` (first claim wins), registration, then
the absolute-path denylist.  Returns the updated `seenPaths`. -/
def validatePath (path secretName : String) (seen : List (String × String)) :
    Except OpErr (List (String × String)) :=
  if path = "" then
    .error (.configValidation (secretName ++ ".path") "<empty>" "Path cannot be empty"
      ["Specify a valid file path for the secret",
       "Use relative path: database/password",
       "Or absolute path: /etc/ssl/certs/app.pem"])
  else if goContains path ".." then
    .error (.configValidation (secretName ++ ".path") path
      "Path traversal detected (contains \x27..\x27)"
      ["Remove \x27..\x27 from the path",
       "Use absolute paths if you need to place files outside the base directory",
       "Example: /etc/ssl/certs/cert.pem instead of ../../../etc/ssl/certs/cert.pem"])
  else
    match lookupA seen path with
    | some existingSecret =>
      .error (.configValidation (secretName ++ ".path") path
        ("Duplicate path (already used by " ++ existingSecret ++ ")")
        ["Each secret must have a unique path",
         "Change the path to something unique",
         "Current conflicting path: " ++ path])
    | none =>
      let seen2 := upsertA seen path secretName
      if goHasPre "/" path then
        match validateAbsolutePath path secretName with
        | .error e => .error e
        | .ok _ => .ok seen2
      else .ok seen2

/-- Model of `Validator.validateSymlinks`; note the source checks the
denylist before the duplicate check here, unlike `validatePath`. -/
def validateSymlinksFrom (secretName : String) :
    List String → Nat → List (String × String) → Except OpErr (List (String × String))
  | [], _, seen => .ok seen
  | symlink :: rest, i, seen =>
    let symlinkName := secretName ++ ".symlinks[" ++ toString i ++ "]"
    if symlink = "" then
      .error (.configValidation symlinkName "<empty>" "Symlink path cannot be empty"
        ["Specify a valid symlink path",
         "Remove empty symlink entries from the array"])
    else if goContains symlink ".." then
      .error (.configValidation symlinkName symlink
        "Symlink path contains path traversal attempt (..)"
        ["Remove \x27..\x27 from the symlink path",
         "Use absolute paths for symlinks outside the base directory"])
    else
      match (if goHasPre "/" symlink then validateAbsolutePath symlink symlinkName else .ok ()) with
      | .error e => .error e
      | .ok _ =>
        match lookupA seen symlink with
        | some existingSecret =>
          .error (.configValidation symlinkName symlink
            ("Duplicate symlink path (conflicts with " ++ existingSecret ++ ")")
            ["Each symlink must have a unique path",
             "Change the symlink path to something unique"])
        | none =>
          validateSymlinksFrom secretName rest (i + 1)
            (upsertA seen symlink (secretName ++ " (symlink)"))

def validateSymlinks (symlinks : List String) (secretName : String)
    (seen : List (String × String)) : Except OpErr (List (String × String)) :=
  validateSymlinksFrom secretName symlinks 0 seen

/-- Model of `Validator.validateReference`: 1Password reference shape. -/
def validateReference (reference secretName : String) : Except OpErr Unit :=
  if reference = "" then
    .error (.configValidation (secretName ++ ".reference") "<empty>" "Reference cannot be empty"
      ["Add a valid 1Password reference: op://Vault/Item/field",
       "Example: op://Homelab/Database/password",
       "Check 1Password documentation for reference format"])
  else if !goHasPre "op://" reference then
    .error (.configValidation (secretName ++ ".reference") reference
      "Invalid 1Password reference format"
      ["Use format: op://Vault/Item/field or op://Vault/Item/Section/field",
       "Example: op://Homelab/Database/password",
       "Example with section: op://Homelab/Cloudflare/rgbr.ink/cert",
       "Ensure vault, item, and field names don\x27t contain forward slashes",
       "Check the reference in 1Password web interface"])
  else if (goSplitSlash (goTrimPre "op://" reference)).length < 3 then
    .error (.configValidation (secretName ++ ".reference") reference
      "Reference must have at least 3 parts: vault/item/field"
      ["Verify the reference format: op://Vault/Item/field",
       "Or with sections: op://Vault/Item/Section/field",
       "Check for missing forward slashes"])
  else if (goSplitSlash (goTrimPre "op://" reference)).headD "" = "" then
    .error (.configValidation (secretName ++ ".reference") reference
      "Vault name cannot be empty"
      ["Specify a valid vault name in the reference",
       "List available vaults: op vault list"])
  else if ((goSplitSlash (goTrimPre "op://" reference)).drop 1).headD "" = "" then
    .error (.configValidation (secretName ++ ".reference") reference
      "Item name cannot be empty"
      ["Specify a valid item name in the reference",
       "List items in vault: op item list --vault \x27" ++
         (goSplitSlash (goTrimPre "op://" reference)).headD "" ++ "\x27"])
  else if (goSplitSlash (goTrimPre "op://" reference)).getLastD "" = "" then
    .error (.configValidation (secretName ++ ".reference") reference
      "Field name cannot be empty"
      ["Specify a valid field name in the reference",
       "View item details: op item get \x27" ++
         ((goSplitSlash (goTrimPre "op://" reference)).drop 1).headD "" ++
         "\x27 --vault \x27" ++ (goSplitSlash (goTrimPre "op://" reference)).headD "" ++ "\x27",
       "Common field names: password, credential, token, key"])
  else .ok ()

/-- Model of `isServiceUser`. -/
def isServiceUser (username : String) : Bool :=
  ["nginx", "apache", "www-data", "caddy",
   "postgres", "mysql", "redis",
   "docker", "systemd", "nobody"].contains username

/-- Model of `isServiceGroup`. -/
def isServiceGroup (groupname : String) : Bool :=
  ["nginx", "apache", "www-data", "caddy",
   "postgres", "mysql", "redis",
   "docker", "systemd", "nobody", "ssl-cert"].contains groupname

/-- Model of `Validator.getAvailableUsers` over the host database. -/
def getAvailableUsers (env : Env) : List String :=
  let users := "root" :: env.passwdNames.filter (fun u => u ≠ "root" && isServiceUser u)
  users.take (min users.length 10)

/-- Model of `Validator.getAvailableGroups`. -/
def getAvailableGroups (env : Env) : List String :=
  let groups := "root" :: env.groupNames.filter (fun g => g ≠ "root" && isServiceGroup g)
  groups.take (min groups.length 10)

/-- Model of `Validator.validateUser`: root always exists, others must be
in the host user database. -/
def validateUser (env : Env) (username secretName : String) : Except OpErr Unit :=
  if username = "root" then .ok ()
  else if env.users.contains username then .ok ()
  else .error (.userGroup ("Validating " ++ secretName ++ ".owner") username "user"
    (getAvailableUsers env))

/-- Model of `Validator.validateGroup`. -/
def validateGroup (env : Env) (groupname secretName : String) : Except OpErr Unit :=
  if groupname = "root" then .ok ()
  else if env.groups.contains groupname then .ok ()
  else .error (.userGroup ("Validating " ++ secretName ++ ".group") groupname "group"
    (getAvailableGroups env))

/-- Model of `Validator.validateOwnership`. -/
def validateOwnership (env : Env) (owner group secretName : String) : Except OpErr Unit :=
  match (if owner ≠ "" then validateUser env owner secretName else .ok ()) with
  | .error e => .error e
  | .ok _ => if group ≠ "" then validateGroup env group secretName else .ok ()

def isOctalDigit (c : Char) : Bool := '0' ≤ c && c ≤ '7'

/-- The `^[0-7]\x7b3,4\x7d$` mode pattern. -/
def isOctalMode (mode : String) : Bool :=
  (mode.data.length = 3 || mode.data.length = 4) && mode.data.all isOctalDigit

/-- Model of `strconv.ParseUint(mode, 8, 32)` on the mode strings the
pattern admits (3-4 octal digits, so no overflow is reachable). -/
def parseOctal (s : String) : Option Nat :=
  if s.data.isEmpty then none
  else s.data.foldl
    (fun acc c => acc.bind (fun n => if isOctalDigit c then some (n * 8 + (c.toNat - 48)) else none))
    (some 0)

/-- Model of `Validator.validateModeSecurity`: the world-write bit 0002 is
always an error. -/
def validateModeSecurity (mode secretName : String) : Except OpErr Unit :=
  if Nat.land ((parseOctal mode).getD 0) 2 ≠ 0 then
    .error (.configValidation (secretName ++ ".mode") mode
      "Mode allows world write access (others can modify the secret)"
      ["Remove write permission for others",
       "This is a serious security risk",
       "Use modes like 0600, 0640, or 0644 instead"])
  else .ok ()

/-- Model of `Validator.validateMode`. -/
def validateMode (mode secretName : String) : Except OpErr Unit :=
  if mode = "" then .ok ()
  else if !isOctalMode mode then
    .error (.validationErr ("Validating " ++ secretName ++ ".mode") "mode" mode
      "3-4 digit octal number (e.g., 0600, 0644, 0755)")
  else
    match parseOctal mode with
    | none =>
      .error (.validationErr ("Validating " ++ secretName ++ ".mode") "mode" mode
        "valid octal number")
    | some _ => validateModeSecurity mode secretName

/-- Model of `Validator.validateSecret`: the per-secret check sequence. -/
def validateSecret (env : Env) (secret : SecretData) (secretName : String)
    (seen : List (String × String)) : Except OpErr (List (String × String)) :=
  match validateReference secret.reference secretName with
  | .error e => .error e
  | .ok _ =>
    match resolvePath secret.path secret.pathTemplate secret.vars secret.defaults secretName with
    | .error e => .error e
    | .ok finalPath =>
      match validatePath finalPath secretName seen with
      | .error e => .error e
      | .ok seen2 =>
        match validateSymlinks secret.symlinks secretName seen2 with
        | .error e => .error e
        | .ok seen3 =>
          match validateOwnership env secret.owner secret.group secretName with
          | .error e => .error e
          | .ok _ =>
            match validateMode secret.mode secretName with
            | .error e => .error e
            | .ok _ => .ok seen3

/-- Per-secret loop of `Validator.ValidateConfigStruct`, carrying the index
used in `secret[%d]` names and the claimed-path map. -/
def validateSecretsFrom (env : Env) : Nat → List (String × String) → List SecretData →
    Except OpErr Unit
  | _, _, [] => .ok ()
  | i, seen, s :: rest =>
    match validateSecret env s ("secret[" ++ toString i ++ "]") seen with
    | .error e => .error e
    | .ok seen2 => validateSecretsFrom env (i + 1) seen2 rest

/-- Model of `Validator.ValidateConfigStruct`. -/
def ValidateConfigStruct (env : Env) (secrets : List SecretData) : Except OpErr Unit :=
  if secrets.isEmpty then
    .error (.configErr "Configuration validation" "No secrets defined in configuration")
  else validateSecretsFrom env 0 [] secrets

end validation

/-! ## Configuration structures (internal/config) -/

namespace config

/-- Model of `config.Secret` (the union of the fields the current validator
and processor read). -/
structure Secret where
  path : String
  reference : String
  owner : String
  group : String
  mode : String
  symlinks : List String
  vars : List (String × String)
  services : Option validation.SVal
  template : String

structure ChangeDetection where
  enable : Bool
  hashFile : String

structure ErrorHandling where
  rollbackOnFailure : Bool
  continueOnError : Bool
  maxRetries : Int

structure SystemdIntegration where
  enable : Bool
  services : List String
  restartOnChange : Bool
  changeDetection : ChangeDetection
  errorHandling : ErrorHandling

structure Config where
  secrets : List Secret
  pathTemplate : String
  defaults : List (String × String)
  systemdIntegration : SystemdIntegration

/-- Model of `Config.convertToValidationSecrets`. -/
def convertToValidationSecrets (c : Config) : List validation.SecretData :=
  c.secrets.map (fun s =>
    { path := s.path, reference := s.reference, owner := s.owner, group := s.group,
      mode := s.mode, symlinks := s.symlinks, vars := s.vars, services := s.services,
      pathTemplate := c.pathTemplate, defaults := c.defaults })

/-- Model of `config.Load` on an already-parsed document: reading and JSON
decoding are assumed to succeed (they are external I/O), after which the
loaded configuration is validated before being returned. -/
def Load (env : validation.Env) (c : Config) : Except OpErr Config :=
  match validation.ValidateConfigStruct env (convertToValidationSecrets c) with
  | .error e => .error e
  | .ok _ => .ok c

end config

/-! ## Secret processor (internal/secrets) -/

namespace secrets

/-- Model of `filepath.Dir`, without the lexical clean step (the source only
applies it to already-resolved paths). -/
def goDir (path : String) : String :=
  match (splitOnChar '/' path.data).dropLast with
  | [] => "."
  | [[]] => "/"
  | segs => String.mk ((segs.map (· ++ ['/'])).flatten.dropLast)

/-- Model of `filepath.Join` for the output-directory prefix case. -/
def goJoin (dir file : String) : String :=
  if dir = "" then file else dir ++ "/" ++ file

/-- Model of `Processor.validateVariableValue` (secrets package): unlike the
validator of the validation package, it checks only for `..`. -/
def validateVariableValue (value varName secretName : String) : Except OpErr Unit :=
  if goContains value ".." then
    .error (.configErr ("Validating variable " ++ varName ++ " for " ++ secretName)
      ("Variable value \x27" ++ value ++ "\x27 contains path traversal attempt (..)"))
  else .ok ()

/-- Fuelled model of the `for strings.Contains(result, "\x7b") && ...` loop in
`Processor.substituteVariables`.  `none` means the fuel ran out while the
loop guard still held — the Go loop is still running at that point, so a
result of `none` for every fuel is exactly non-termination of the source. -/
def substituteVariablesF (allVars : List (String × String)) (secretName : String) :
    Nat → List Char → Option (Except OpErr String)
  | 0, _ => none
  | fuel + 1, result =>
    if containsSub ['{'] result && containsSub ['}'] result then
      match idxOfChar '{' result with
      | none => some (.ok (String.mk result))
      | some start =>
        match idxOfChar '}' (result.drop start) with
        | none => some (.ok (String.mk result))
        | some e0 =>
          let endI := e0 + start
          let placeholder := (result.take (endI + 1)).drop start
          let varName := String.mk ((result.take endI).drop (start + 1))
          match lookupA allVars varName with
          | none =>
            some (.error (.configErr ("Processing template variable for " ++ secretName)
              ("Template variable \x27\x7b" ++ varName ++ "\x7d\x27 not found in variables or defaults")))
          | some value =>
            match validateVariableValue value varName secretName with
            | .error err => some (.error err)
            | .ok _ =>
              substituteVariablesF allVars secretName fuel
                (replaceAllF placeholder value.data result.length result)
    else some (.ok (String.mk result))

/-- Model of `Processor.substituteVariables`. -/
def substituteVariables (fuel : Nat) (defaults vars : List (String × String))
    (secretName templateText : String) : Option (Except OpErr String) :=
  substituteVariablesF (mergeVars defaults vars) secretName fuel templateText.data

/-- Model of `Processor.resolveSecretPath`. -/
def resolveSecretPath (outputDir secretPath : String) : String :=
  if goHasPre "/" secretPath then secretPath else goJoin outputDir secretPath

/-- Model of `Processor.resolveSecretPathWithTemplate`. -/
def resolveSecretPathWithTemplate (fuel : Nat) (outputDir pathTemplate : String)
    (defaults : List (String × String)) (s : config.Secret) (secretName : String) :
    Option (Except OpErr String) :=
  if s.path ≠ "" then
    match substituteVariables fuel defaults s.vars secretName s.path with
    | none => none
    | some (.error e) => some (.error e)
    | some (.ok p) => some (.ok (resolveSecretPath outputDir p))
  else if pathTemplate = "" then
    some (.error (.configErr ("Resolving path for " ++ secretName)
      "No path specified and no pathTemplate configured"))
  else
    match substituteVariables fuel defaults s.vars secretName pathTemplate with
    | none => none
    | some (.error e) => some (.error e)
    | some (.ok p) => some (.ok (resolveSecretPath outputDir p))

/-- Model of `Processor.validateSecretPath`; the parent-directory probe
write is an oracle `writableDir`. -/
def validateSecretPath (writableDir : String → Bool) (resolvedPath secretName : String) :
    Except OpErr Unit :=
  if goContains resolvedPath ".." then
    .error (.fileOperation ("Validating path for " ++ secretName) resolvedPath
      "Path contains path traversal attempt (..)")
  else
    match validation.dangerousPaths.find? (fun d => goHasPre d resolvedPath) with
    | some dangerous =>
      .error (.fileOperation ("Validating path for " ++ secretName) resolvedPath
        ("Path targets potentially dangerous system location: " ++ dangerous))
    | none =>
      if writableDir (goDir resolvedPath) then .ok ()
      else
        .error (.fileOperation ("Validating parent directory for " ++ secretName)
          (goDir resolvedPath) "Parent directory is not writable or cannot be created")

/-- Model of the processor\x27s `getAvailableUsers` (probes a fixed list of
common accounts against the host database). -/
def pGetAvailableUsers (env : validation.Env) : List String :=
  "root" :: ["nginx", "apache", "www-data", "caddy", "postgres", "mysql", "redis",
    "docker"].filter env.users.contains

/-- Model of the processor\x27s `getAvailableGroups`. -/
def pGetAvailableGroups (env : validation.Env) : List String :=
  "root" :: ["nginx", "apache", "www-data", "caddy", "postgres", "mysql", "redis",
    "docker", "ssl-cert"].filter env.groups.contains

/-- Model of `Processor.setOwnership`; uid/gid parsing and the chown
syscall are assumed to succeed, only the account lookups can fail. -/
def setOwnership (env : validation.Env) (owner group secretName : String) :
    Except OpErr Unit :=
  if owner ≠ "" ∧ owner ≠ "root" ∧ ¬env.users.contains owner then
    .error (.userGroup ("Setting ownership for " ++ secretName) owner "user"
      (pGetAvailableUsers env))
  else if group ≠ "" ∧ group ≠ "root" ∧ ¬env.groups.contains group then
    .error (.userGroup ("Setting ownership for " ++ secretName) group "group"
      (pGetAvailableGroups env))
  else .ok ()

/-- Trace of the externally visible effects of one processing run. -/
structure PTrace where
  vaultCalls : List String
  writes : List (String × String)
  links : List (String × String)
  deriving DecidableEq, Repr

instance : Append PTrace :=
  ⟨fun a b => ⟨a.vaultCalls ++ b.vaultCalls, a.writes ++ b.writes, a.links ++ b.links⟩⟩

/-- Model of `Processor.createSymlinks`: validate each link path, then
record the symlink pointing at the target. -/
def createSymlinks (writableDir : String → Bool) (targetPath : String) :
    List String → String → Nat → Except OpErr (List (String × String))
  | [], _, _ => .ok []
  | symlinkPath :: rest, secretName, i =>
    let symlinkName := secretName ++ ".symlinks[" ++ toString i ++ "]"
    match validateSecretPath writableDir symlinkPath symlinkName with
    | .error e => .error e
    | .ok _ =>
      match createSymlinks writableDir targetPath rest secretName (i + 1) with
      | .error e => .error e
      | .ok links => .ok ((symlinkPath, targetPath) :: links)

/-- Model of `Processor.processSecret`.  `vault` is the 1Password client,
`render` the text/template engine (both external); `none` is divergence of
the substitution loop. -/
def processSecret (fuel : Nat) (env : validation.Env)
    (vault : String → Except String String) (render : String → String → Option String)
    (writableDir : String → Bool) (outputDir pathTemplate : String)
    (defaults : List (String × String)) (s : config.Secret) (secretName : String) :
    Option (Except OpErr Unit × PTrace) :=
  match vault s.reference with
  | .error _ =>
    some (.error (.onePassword ("Resolving secret " ++ secretName)
      ("Failed to resolve 1Password reference: " ++ s.reference)),
      ⟨[s.reference], [], []⟩)
  | .ok value0 =>
    let rendered : Except OpErr String :=
      if s.template ≠ "" then
        match render s.template value0 with
        | none => .error (.templateErr ("Executing template for " ++ secretName) s.template)
        | some v => .ok v
      else .ok value0
    match rendered with
    | .error e => some (.error e, ⟨[s.reference], [], []⟩)
    | .ok value =>
      match resolveSecretPathWithTemplate fuel outputDir pathTemplate defaults s secretName with
      | none => none
      | some (.error e) => some (.error e, ⟨[s.reference], [], []⟩)
      | some (.ok outputPath) =>
        match validateSecretPath writableDir outputPath secretName with
        | .error e => some (.error e, ⟨[s.reference], [], []⟩)
        | .ok _ =>
          let mode := if s.mode = "" then "0600" else s.mode
          match validation.parseOctal mode with
          | none =>
            some (.error (.validationErr ("Parsing file mode for " ++ secretName) "mode" mode
              "3-4 digit octal number (e.g., 0600, 0644)"), ⟨[s.reference], [], []⟩)
          | some _ =>
            let ownership : Except OpErr Unit :=
              if s.owner ≠ "" ∨ s.group ≠ "" then setOwnership env s.owner s.group secretName
              else .ok ()
            match ownership with
            | .error e => some (.error e, ⟨[s.reference], [(outputPath, value)], []⟩)
            | .ok _ =>
              match createSymlinks writableDir outputPath s.symlinks secretName 0 with
              | .error e => some (.error e, ⟨[s.reference], [(outputPath, value)], []⟩)
              | .ok links => some (.ok (), ⟨[s.reference], [(outputPath, value)], links⟩)

/-- Per-secret loop of `Processor.Process`. -/
def processList (fuel : Nat) (env : validation.Env)
    (vault : String → Except String String) (render : String → String → Option String)
    (writableDir : String → Bool) (outputDir pathTemplate : String)
    (defaults : List (String × String)) :
    Nat → List config.Secret → Option (Except OpErr Unit × PTrace)
  | _, [] => some (.ok (), ⟨[], [], []⟩)
  | i, s :: rest =>
    let secretName := "secret[" ++ toString i ++ "]:" ++ s.path
    match processSecret fuel env vault render writableDir outputDir pathTemplate defaults
        s secretName with
    | none => none
    | some (.error e, tr) => some (.error e, tr)
    | some (.ok _, tr) =>
      match processList fuel env vault render writableDir outputDir pathTemplate defaults
          (i + 1) rest with
      | none => none
      | some (r, tr2) => some (r, tr ++ tr2)

/-- Model of `Processor.Process`: adopt the config-level template and
defaults, then process each secret in order, stopping at the first error. -/
def Process (fuel : Nat) (env : validation.Env)
    (vault : String → Except String String) (render : String → String → Option String)
    (writableDir : String → Bool) (outputDir : String) (c : config.Config) :
    Option (Except OpErr Unit × PTrace) :=
  processList fuel env vault render writableDir outputDir c.pathTemplate c.defaults 0 c.secrets

end secrets

/-! ## Systemd integration: change detection and service reconciliation
(internal/systemd/integration.go) -/

namespace systemd

/-- Model of `systemd.SecretHash`, one persisted hash record. -/
structure SecretHash where
  path : String
  hash : String
  lastModified : Int
  deriving DecidableEq, Repr

/-- The hashes map of `systemd.HashStore`. -/
abbrev Store := List (String × SecretHash)

def storeLookup (hs : Store) (p : String) : Option SecretHash :=
  (hs.find? (fun q => q.1 = p)).map (·.2)

/-- Write `hs.Hashes[p] = h`. -/
def storeInsert (hs : Store) (p : String) (h : SecretHash) : Store :=
  if hs.any (fun q => q.1 = p) then hs.map (fun q => if q.1 = p then (p, h) else q)
  else hs ++ [(p, h)]

/-- Model of `HashStore.hasChanged`.  `hashFn` is the SHA-256 of
`calculateHash` (crypto stdlib, external), applied to the file content;
`fs` maps a path to its content and modification time (`none` = the open
or stat fails).  Returns the changed flag and the updated store. -/
def hasChanged (hashFn : List Char → String) (fs : String → Option (List Char × Int))
    (hs : Store) (filePath : String) : Except OpErr (Bool × Store) :=
  match fs filePath with
  | none =>
    .error (.fileOperation "Opening file for hashing" filePath
      "Failed to open file for hash calculation")
  | some (content, modTime) =>
    let currentHash := hashFn content
    match storeLookup hs filePath with
    | none =>
      .ok (true, storeInsert hs filePath ⟨filePath, currentHash, modTime⟩)
    | some previousHash =>
      if previousHash.hash ≠ currentHash then
        .ok (true, storeInsert hs filePath ⟨filePath, currentHash, modTime⟩)
      else .ok (false, hs)

/-- Model of `systemd.ServiceAction`. -/
structure ServiceAction where
  name : String
  restart : Bool
  signal : String
  after : List String
  deriving DecidableEq, Repr

/-- The default `After` dependency of every extracted action. -/
def defaultAfter : List String := ["opnix-secrets.service"]

/-- Flat `[]interface\x7b\x7d` branch of `ExtractServiceActions`: keep the
strings, each with the global `RestartOnChange` default. -/
def extractFromList (restartOnChange : Bool) : List validation.SVal → List ServiceAction
  | [] => []
  | .str serviceName :: rest =>
    { name := serviceName, restart := restartOnChange, signal := "", after := defaultAfter } ::
      extractFromList restartOnChange rest
  | _ :: rest => extractFromList restartOnChange rest

def svalLookup (fields : List (String × validation.SVal)) (k : String) :
    Option validation.SVal :=
  (fields.find? (fun p => p.1 = k)).map (·.2)

/-- String elements of a `[]interface\x7b\x7d` value, as in the `after` parse. -/
def collectStrs (xs : List validation.SVal) : List String :=
  xs.filterMap (fun v => match v with | .str s => some s | _ => none)

/-- Advanced `map[string]interface\x7b\x7d` branch of `ExtractServiceActions`. -/
def extractFromMap (restartOnChange : Bool) :
    List (String × validation.SVal) → List ServiceAction
  | [] => []
  | (serviceName, svcConfig) :: rest =>
    let base : ServiceAction :=
      { name := serviceName, restart := restartOnChange, signal := "", after := defaultAfter }
    let action :=
      match svcConfig with
      | .obj cf =>
        let a1 := match svalLookup cf "restart" with
          | some (.boolv b) => { base with restart := b }
          | _ => base
        let a2 := match svalLookup cf "signal" with
          | some (.str sg) => { a1 with signal := sg }
          | _ => a1
        match svalLookup cf "after" with
          | some (.arr xs) => { a2 with after := collectStrs xs }
          | _ => a2
      | _ => base
    action :: extractFromMap restartOnChange rest

/-- Model of `Manager.ExtractServiceActions`. -/
def ExtractServiceActions (cfg : config.SystemdIntegration) (s : config.Secret)
    (secretName : String) : Except OpErr (List ServiceAction) :=
  match s.services with
  | none => .ok []
  | some (.arr xs) => .ok (extractFromList cfg.restartOnChange xs)
  | some (.obj fields) => .ok (extractFromMap cfg.restartOnChange fields)
  | some _ =>
    .error (.configErr ("Parsing services for secret " ++ secretName)
      "Services field must be an array of strings or object with service configurations")

/-- Observable interactions with the host: backoff sleeps and command
dispatches (`exec.Command` / the dry-run echo). -/
inductive Ev where
  | sleep (secs : Nat)
  | exec (cmd : String) (args : List String)
  | dryRunEcho (cmd : String) (args : List String)
  deriving DecidableEq, Repr

/-- Command selection of `executeServiceAction`: signal beats restart beats
reload. -/
def actionCommand (systemctl : String) (a : ServiceAction) : String × List String :=
  if a.signal ≠ "" then
    ("kill", ["-" ++ a.signal, "$(systemctl show -p MainPID --value " ++ a.name ++ ")"])
  else if a.restart then (systemctl, ["restart", a.name])
  else (systemctl, ["reload", a.name])

/-- The `for attempt := 0; attempt < maxRetries; attempt++` retry loop.
`oracle attempt` is the combined-output error of the dispatched command on
that attempt (`none` = success).  Returns Go\x27s `lastErr` plus the trace. -/
def execLoop (oracle : Nat → Option String) (dryRun : Bool) (cmd : String)
    (args : List String) : Nat → Nat → Option String → Option String × List Ev
  | 0, _, lastErr => (lastErr, [])
  | remaining + 1, attempt, _lastErr =>
    let pre : List Ev := if attempt > 0 then [.sleep attempt] else []
    if dryRun then (none, pre ++ [.dryRunEcho cmd args])
    else
      match oracle attempt with
      | some msg =>
        let (r, evs) := execLoop oracle dryRun cmd args remaining (attempt + 1)
          (some ("command failed: " ++ msg))
        (r, pre ++ .exec cmd args :: evs)
      | none => (none, pre ++ [.exec cmd args])

/-- Model of `Manager.executeServiceAction`.  A result of `none` is Go\x27s
`nil` error, i.e. success. -/
def executeServiceAction (systemctl : String) (oracle : Nat → Option String)
    (dryRun : Bool) (maxRetries : Int) (a : ServiceAction) : Option String × List Ev :=
  execLoop oracle dryRun (actionCommand systemctl a).1 (actionCommand systemctl a).2
    maxRetries.toNat 0 none

/-- The dedup map build of `processServiceActions`: keyed by service name,
restart wins over non-restart. -/
def dedupActions (actions : List ServiceAction) : List (String × ServiceAction) :=
  actions.foldl (fun m a =>
    match m.find? (fun p => p.1 = a.name) with
    | some (_, existing) =>
      if a.restart && !existing.restart then
        m.map (fun p => if p.1 = a.name then (a.name, a) else p)
      else m
    | none => m ++ [(a.name, a)]) []

/-- Execution half of `processServiceActions`: run each deduplicated action,
collecting per-service failures, aborting at the first failure unless
`continueOnError`. -/
def runActions (systemctl : String) (oracle : String → Nat → Option String) (dryRun : Bool)
    (eh : config.ErrorHandling) : List (String × ServiceAction) → List String →
    Except OpErr Unit × List String × List Ev
  | [], failures => (.ok (), failures, [])
  | (serviceName, a) :: rest, failures =>
    let (r, evs) := executeServiceAction systemctl (oracle serviceName) dryRun eh.maxRetries a
    match r with
    | some err =>
      let failures2 := failures ++ [serviceName ++ ": " ++ err]
      if !eh.continueOnError then
        (.error (.serviceErr ("Executing service action for " ++ serviceName) serviceName
          "restart/reload"), failures2, evs)
      else
        let (r2, f3, evs2) := runActions systemctl oracle dryRun eh rest failures2
        (r2, f3, evs ++ evs2)
    | none =>
      let (r2, f3, evs2) := runActions systemctl oracle dryRun eh rest failures
      (r2, f3, evs ++ evs2)

/-- Model of `Manager.processServiceActions`. -/
def processServiceActions (systemctl : String) (oracle : String → Nat → Option String)
    (dryRun : Bool) (eh : config.ErrorHandling) (actions : List ServiceAction) :
    Except OpErr Unit × List String × List Ev :=
  runActions systemctl oracle dryRun eh (dedupActions actions) []

/-- Per-secret half of `ProcessSecretChanges`: determine each changed
secret and accumulate its extracted service actions. -/
def secretsLoop (cfg : config.SystemdIntegration) (hashFn : List Char → String)
    (fs : String → Option (List Char × Int)) (secretPaths : List (String × String)) :
    Nat → List config.Secret → Option Store → List String → List ServiceAction →
    Except OpErr (List String × List ServiceAction × Option Store)
  | _, [], store, changed, actions => .ok (changed, actions, store)
  | i, s :: rest, store, changed, actions =>
    let secretName := "secret[" ++ toString i ++ "]:" ++ s.path
    let pathR : Option String :=
      if s.path ≠ "" then
        if goHasPre "/" s.path then some s.path
        else
          match lookupA secretPaths secretName with
          | some p => some p
          | none => none
      else some ""
    match pathR with
    | none => secretsLoop cfg hashFn fs secretPaths (i + 1) rest store changed actions
    | some secretPath =>
      let det : Except OpErr (Bool × Option Store) :=
        if cfg.changeDetection.enable then
          match store with
          | some hs =>
            match hasChanged hashFn fs hs secretPath with
            | .error e => .error e
            | .ok (b, hs2) => .ok (b, some hs2)
          | none => .ok (true, store)
        else .ok (true, store)
      match det with
      | .error e =>
        if cfg.errorHandling.continueOnError then
          secretsLoop cfg hashFn fs secretPaths (i + 1) rest store changed actions
        else .error e
      | .ok (changedB, store2) =>
        if changedB then
          let changed2 := changed ++ [secretName]
          match ExtractServiceActions cfg s secretName with
          | .error e =>
            if cfg.errorHandling.continueOnError then
              secretsLoop cfg hashFn fs secretPaths (i + 1) rest store2 changed2 actions
            else .error e
          | .ok acts =>
            secretsLoop cfg hashFn fs secretPaths (i + 1) rest store2 changed2 (actions ++ acts)
        else secretsLoop cfg hashFn fs secretPaths (i + 1) rest store2 changed actions

/-- Model of `Manager.ProcessSecretChanges`: the integration entry point.
Returns the run result, the recorded per-service failures, the service
manager trace, and the final hash store. -/
def ProcessSecretChanges (cfg : config.SystemdIntegration) (systemctl : String)
    (oracle : String → Nat → Option String) (dryRun : Bool) (hashFn : List Char → String)
    (fs : String → Option (List Char × Int)) (store0 : Option Store)
    (secrets : List config.Secret) (secretPaths : List (String × String)) :
    Except OpErr Unit × List String × List Ev × Option Store :=
  if !cfg.enable then (.ok (), [], [], store0)
  else
    match secretsLoop cfg hashFn fs secretPaths 0 secrets store0 [] [] with
    | .error e => (.error e, [], [], store0)
    | .ok (_, actions, store2) =>
      if actions.isEmpty then (.ok (), [], [], store2)
      else
        let (r, failures, evs) := processServiceActions systemctl oracle dryRun
          cfg.errorHandling actions
        (r, failures, evs, store2)

end systemd

/-! ## Token acquisition and the secret command (internal/onepass, cmd/opnix) -/

namespace validation

/-- Model of `Validator.ValidateTokenFile`: existence, readability and
non-emptiness of the bearer-token file.  `statOk` is the `os.Stat` probe,
`readToken` the `os.ReadFile` result. -/
def ValidateTokenFile (tokenPath : String) (statOk : Bool)
    (readToken : Except String String) : Except OpErr Unit :=
  if !statOk then
    .error (.tokenErr ("Token file does not exist: " ++ tokenPath) tokenPath)
  else
    match readToken with
    | .error msg => .error (.tokenErr ("Cannot read token file: " ++ msg) tokenPath)
    | .ok content =>
      if (goTrimSpace content).data.length = 0 then
        .error (.tokenErr "Token file is empty" tokenPath)
      else .ok ()

end validation

namespace onepass

/-- Model of `onepass.GetToken`: environment variable first, then the token
file; `readToken` is the `os.ReadFile` outcome for the token file. -/
def GetToken (envToken tokenFile : String) (readToken : Except String String) :
    Except OpErr String :=
  if envToken ≠ "" then .ok envToken
  else if tokenFile ≠ "" then
    match readToken with
    | .error msg => .error (.tokenErr ("Failed to read token file: " ++ msg) tokenFile)
    | .ok data =>
      let token := goTrimSpace data
      if token.data.length = 0 then .error (.tokenErr "Token file is empty" tokenFile)
      else .ok token
  else
    .error (.tokenErr
      "No token provided - neither OP_SERVICE_ACCOUNT_TOKEN environment variable nor token file specified"
      tokenFile)

/-- Model of `onepass.NewClient`; `sdkInitOk` is the external 1Password SDK
constructor.  On success the client is represented by its token. -/
def NewClient (envToken tokenFile : String) (readToken : Except String String)
    (sdkInitOk : Bool) : Except OpErr String :=
  match GetToken envToken tokenFile readToken with
  | .error e => .error e
  | .ok token =>
    if sdkInitOk then .ok token
    else
      .error (.onePassword "Initializing 1Password client"
        "Failed to create 1Password SDK client - check token validity")

end onepass

namespace cmd

/-- External conditions of one `opnix secret` invocation. -/
structure RunEnv where
  configExists : Bool
  outputWritable : Bool
  envToken : String
  tokenStatOk : Bool
  readToken : Except String String
  sdkInitOk : Bool

/-- Model of `secretCommand.Run` (with `validatePrerequisites` inlined):
pre-flight checks, then `config.Load`, then `onepass.NewClient`, then
`processor.Process`.  The token-file warning in the prerequisites does not
affect control flow — only `NewClient` can fail on the token. -/
def runSecretCommand (fuel : Nat) (env : validation.Env) (renv : RunEnv)
    (vault : String → Except String String) (render : String → String → Option String)
    (writableDir : String → Bool) (configFile outputDir tokenFile : String)
    (c : config.Config) : Option (Except OpErr Unit × secrets.PTrace) :=
  if !renv.configExists then
    some (.error (.fileOperation "Checking configuration file" configFile
      "Configuration file does not exist"), ⟨[], [], []⟩)
  else if !renv.outputWritable then
    some (.error (.fileOperation "Testing output directory permissions" outputDir
      "Output directory is not writable"), ⟨[], [], []⟩)
  else
    match config.Load env c with
    | .error e => some (.error e, ⟨[], [], []⟩)
    | .ok cfg =>
      match onepass.NewClient renv.envToken tokenFile renv.readToken renv.sdkInitOk with
      | .error e => some (.error e, ⟨[], [], []⟩)
      | .ok _ => secrets.Process fuel env vault render writableDir outputDir cfg

end cmd

/-! ## NixOS module boot unit (the onepassword-secrets systemd script) -/

namespace nixos

/-- Outcome of the module\x27s secret-fetch unit script. -/
inductive BootOutcome where
  | skipSuccess
  | fail
  | runOpnix
  deriving DecidableEq, Repr

/-- Model of the token-file handling in the NixOS module\x27s service script:
a missing token file degrades to a successful no-op, an unreadable or empty
one fails the unit, otherwise opnix runs. -/
def bootScript (tokenFileExists tokenReadable tokenNonEmpty : Bool) : BootOutcome :=
  if !tokenFileExists then .skipSuccess
  else if !tokenReadable then .fail
  else if !tokenNonEmpty then .fail
  else .runOpnix

end nixos

/-! ## Helper lemmas on the association-list primitives -/

theorem lookupA_append (m1 m2 : List (String × String)) (k : String) :
    lookupA (m1 ++ m2) k = ((lookupA m1 k).orElse fun _ => lookupA m2 k) := by
  induction m1 with
  | nil => simp [lookupA]
  | cons p rest ih =>
    by_cases h : p.1 = k <;> simp [lookupA, h, ih, Option.orElse]

theorem lookupA_none_any (m : List (String × String)) (k : String)
    (h : lookupA m k = none) : m.any (fun p => p.1 = k) = false := by
  induction m with
  | nil => simp
  | cons p rest ih =>
    by_cases hp : p.1 = k
    · simp [lookupA, hp] at h
    · simp only [lookupA, if_neg hp] at h
      simp [hp, ih h]

theorem lookupA_upsert_self (m : List (String × String)) (k v : String)
    (h : lookupA m k = none) : lookupA (upsertA m k v) k = some v := by
  unfold upsertA
  rw [lookupA_none_any m k h]
  simp only [Bool.false_eq_true, if_false]
  rw [lookupA_append, h]
  simp [lookupA]

theorem lookupA_upsert_preserve (m : List (String × String)) (k k2 v v2 : String)
    (hk2 : lookupA m k2 = none) (h : lookupA m k = some v) :
    lookupA (upsertA m k2 v2) k = some v := by
  unfold upsertA
  rw [lookupA_none_any m k2 hk2]
  simp only [Bool.false_eq_true, if_false]
  rw [lookupA_append, h]
  simp [Option.orElse]

/-! ## C6 — vault reference acceptance -/

/-- C6 (amended): `validateReference` accepts a reference iff it starts with
the `op://` scheme and splits into at least three slash-separated segments
of which the first (vault), second (item) and last (field) are non-empty;
the middle (section) segments are not checked and may be empty. -/
theorem c6_reference_acceptance (reference secretName : String) :
    validation.validateReference reference secretName = .ok () ↔
      (goHasPre "op://" reference = true ∧
       3 ≤ (goSplitSlash (goTrimPre "op://" reference)).length ∧
       (goSplitSlash (goTrimPre "op://" reference)).headD "" ≠ "" ∧
       ((goSplitSlash (goTrimPre "op://" reference)).drop 1).headD "" ≠ "" ∧
       (goSplitSlash (goTrimPre "op://" reference)).getLastD "" ≠ "") := by
  unfold validation.validateReference
  split_ifs with h1 h2 h3 h4 h5 h6
  · subst h1
    simp only [reduceCtorEq, false_iff]
    rintro ⟨hpre, -⟩
    exact absurd hpre (by decide)
  · simp only [reduceCtorEq, false_iff]
    rintro ⟨hpre, -⟩
    simp [hpre] at h2
  · simp only [reduceCtorEq, false_iff]
    rintro ⟨-, hlen, -⟩
    omega
  · simp only [reduceCtorEq, false_iff]
    rintro ⟨-, -, hv, -⟩
    exact hv h4
  · simp only [reduceCtorEq, false_iff]
    rintro ⟨-, -, -, hi, -⟩
    exact hi h5
  · simp only [reduceCtorEq, false_iff]
    rintro ⟨-, -, -, -, hf⟩
    exact hf h6
  · simp only [true_iff]
    exact ⟨by simpa using h2, by omega, h4, h5, h6⟩

/-- C6 counterexample: the reference `op://Vault/Item//field` has an empty
section segment yet is accepted, refuting the claim that every segment must
be non-empty. -/
theorem c6_counterexample :
    validation.validateReference "op://Vault/Item//field" "secret[0]" = .ok () ∧
    goSplitSlash (goTrimPre "op://" "op://Vault/Item//field") =
      ["Vault", "Item", "", "field"] := by
  constructor <;> decide

/-- C6 witness: the acceptance characterization applied at a concrete
accepted reference. -/
theorem c6_witness :
    validation.validateReference "op://Homelab/Database/password" "secret[0]" = .ok () :=
  (c6_reference_acceptance "op://Homelab/Database/password" "secret[0]").mpr (by decide)

/-! ## C8 — world-writable modes are rejected before any vault call -/

theorem octFold_some (l : List Char) (hall : ∀ c ∈ l, validation.isOctalDigit c = true) :
    ∀ acc : Nat, ∃ v, l.foldl
      (fun acc c => acc.bind
        (fun n => if validation.isOctalDigit c then some (n * 8 + (c.toNat - 48)) else none))
      (some acc) = some v := by
  induction l with
  | nil => intro acc; exact ⟨acc, rfl⟩
  | cons c cs ih =>
    intro acc
    have hc := hall c (by simp)
    simp only [List.foldl, Option.bind, hc, if_true]
    exact ih (fun d hd => hall d (by simp [hd])) _

theorem parseOctal_isSome (mode : String) (h : validation.isOctalMode mode = true) :
    ∃ v, validation.parseOctal mode = some v := by
  unfold validation.isOctalMode at h
  simp only [Bool.and_eq_true, Bool.or_eq_true, decide_eq_true_eq, List.all_eq_true] at h
  obtain ⟨hlen, hall⟩ := h
  unfold validation.parseOctal
  have hne : mode.data.isEmpty = false := by
    cases hd : mode.data
    · rw [hd] at hlen; simp at hlen
    · simp [hd]
  rw [hne]
  simp only [Bool.false_eq_true, if_false]
  exact octFold_some mode.data hall 0

theorem validateMode_worldWrite (mode secretName : String)
    (hpat : validation.isOctalMode mode = true)
    (hww : Nat.land ((validation.parseOctal mode).getD 0) 2 ≠ 0) :
    validation.validateMode mode secretName =
      .error (.configValidation (secretName ++ ".mode") mode
        "Mode allows world write access (others can modify the secret)"
        ["Remove write permission for others",
         "This is a serious security risk",
         "Use modes like 0600, 0640, or 0644 instead"]) := by
  have hne : mode ≠ "" := by
    intro he
    rw [he] at hpat
    simp [validation.isOctalMode] at hpat
  unfold validation.validateMode
  rw [if_neg hne, hpat]
  simp only [Bool.not_true, Bool.false_eq_true, if_false]
  obtain ⟨v, hv⟩ := parseOctal_isSome mode hpat
  rw [hv]
  unfold validation.validateModeSecurity
  rw [if_pos hww]

theorem validateSecret_ne_ok_of_mode (env : validation.Env) (s : validation.SecretData)
    (hmode : ∀ n, validation.validateMode s.mode n ≠ .ok ()) :
    ∀ secretName seen seen2, validation.validateSecret env s secretName seen ≠ .ok seen2 := by
  intro sn seen seen2
  unfold validation.validateSecret
  cases h1 : validation.validateReference s.reference sn
  · simp [h1]
  · cases h2 : validation.resolvePath s.path s.pathTemplate s.vars s.defaults sn
    · simp [h2]
    · next finalPath =>
      cases h3 : validation.validatePath finalPath sn seen
      · simp [h3]
      · next seenB =>
        cases h4 : validation.validateSymlinks s.symlinks sn seenB
        · simp [h3, h4]
        · next seenC =>
          cases h5 : validation.validateOwnership env s.owner s.group sn
          · simp [h3, h4, h5]
          · cases h6 : validation.validateMode s.mode sn
            · simp [h3, h4, h5, h6]
            · next u =>
              cases u
              exact absurd h6 (hmode sn)

theorem validateSecretsFrom_ne_ok_of_mem (env : validation.Env) (s : validation.SecretData)
    (hne : ∀ sn seen seen2, validation.validateSecret env s sn seen ≠ .ok seen2) :
    ∀ (l : List validation.SecretData) (i : Nat) (seen : List (String × String)),
      s ∈ l → validation.validateSecretsFrom env i seen l ≠ .ok () := by
  intro l
  induction l with
  | nil => intro i seen hmem; simp at hmem
  | cons hd rest ih =>
    intro i seen hmem
    unfold validation.validateSecretsFrom
    split
    · simp
    · next seen2 heq =>
      rcases List.mem_cons.mp hmem with he | hm
      · subst he
        exact absurd heq (hne _ _ _)
      · exact ih (i + 1) seen2 hm

theorem ValidateConfigStruct_ne_ok_of_mem (env : validation.Env)
    (secrets : List validation.SecretData) (s : validation.SecretData) (hmem : s ∈ secrets)
    (hne : ∀ sn seen seen2, validation.validateSecret env s sn seen ≠ .ok seen2) :
    validation.ValidateConfigStruct env secrets ≠ .ok () := by
  unfold validation.ValidateConfigStruct
  split_ifs with h
  · simp
  · exact validateSecretsFrom_ne_ok_of_mem env s hne secrets 0 [] hmem

theorem load_error_of_invalid (env : validation.Env) (c : config.Config)
    (hval : validation.ValidateConfigStruct env (config.convertToValidationSecrets c) ≠ .ok ()) :
    ∃ e, config.Load env c = .error e := by
  unfold config.Load
  cases h : validation.ValidateConfigStruct env (config.convertToValidationSecrets c)
  · exact ⟨_, rfl⟩
  · next u =>
    cases u
    exact absurd h hval

theorem run_no_calls_of_invalid (env : validation.Env) (c : config.Config)
    (hval : validation.ValidateConfigStruct env (config.convertToValidationSecrets c) ≠ .ok ())
    (fuel : Nat) (renv : cmd.RunEnv) (vault : String → Except String String)
    (render : String → String → Option String) (writableDir : String → Bool)
    (configFile outputDir tokenFile : String) (r : Except OpErr Unit) (tr : secrets.PTrace)
    (h : cmd.runSecretCommand fuel env renv vault render writableDir configFile outputDir
      tokenFile c = some (r, tr)) :
    (∃ e, r = .error e) ∧ tr.vaultCalls = [] ∧ tr.writes = [] := by
  obtain ⟨eL, hL⟩ := load_error_of_invalid env c hval
  unfold cmd.runSecretCommand at h
  rw [hL] at h
  split_ifs at h <;>
    · simp only [Option.some.injEq, Prod.mk.injEq] at h
      obtain ⟨hr, htr⟩ := h
      subst htr
      exact ⟨⟨_, hr.symm⟩, rfl, rfl⟩

/-- C8: any mode string that parses as octal with the world-write bit 0002
set is rejected: `validateMode` returns the world-write violation for every
secret name, the whole manifest fails validation for every owner/group
combination, and the run performs no vault call and writes no file. -/
theorem c8_world_writable_mode_rejected (env : validation.Env) (c : config.Config)
    (s : config.Secret) (hmem : s ∈ c.secrets)
    (hpat : validation.isOctalMode s.mode = true)
    (hww : Nat.land ((validation.parseOctal s.mode).getD 0) 2 ≠ 0) :
    (∀ secretName, validation.validateMode s.mode secretName =
      .error (.configValidation (secretName ++ ".mode") s.mode
        "Mode allows world write access (others can modify the secret)"
        ["Remove write permission for others",
         "This is a serious security risk",
         "Use modes like 0600, 0640, or 0644 instead"])) ∧
    validation.ValidateConfigStruct env (config.convertToValidationSecrets c) ≠ .ok () ∧
    (∀ fuel renv vault render writableDir configFile outputDir tokenFile r tr,
      cmd.runSecretCommand fuel env renv vault render writableDir configFile outputDir
        tokenFile c = some (r, tr) →
      (∃ e, r = .error e) ∧ tr.vaultCalls = [] ∧ tr.writes = []) := by
  have hmode : ∀ n, validation.validateMode s.mode n ≠ .ok () := by
    intro n hok
    rw [validateMode_worldWrite s.mode n hpat hww] at hok
    exact Except.noConfusion hok
  have hsd : (⟨s.path, s.reference, s.owner, s.group, s.mode, s.symlinks, s.vars, s.services,
      c.pathTemplate, c.defaults⟩ : validation.SecretData) ∈ config.convertToValidationSecrets c := by
    unfold config.convertToValidationSecrets
    exact List.mem_map.mpr ⟨s, hmem, rfl⟩
  have hval : validation.ValidateConfigStruct env (config.convertToValidationSecrets c) ≠ .ok () :=
    ValidateConfigStruct_ne_ok_of_mem env _ _ hsd
      (validateSecret_ne_ok_of_mode env _ (by simpa using hmode))
  refine ⟨fun secretName => validateMode_worldWrite s.mode secretName hpat hww, hval, ?_⟩
  intro fuel renv vault render writableDir configFile outputDir tokenFile r tr h
  exact run_no_calls_of_invalid env c hval fuel renv vault render writableDir configFile
    outputDir tokenFile r tr h

/-- An empty host account database, used by the concrete checks. -/
def envEmpty : validation.Env :=
  { users := [],
    groups := [],
    passwdNames := [],
    groupNames := [] }

/-- A systemd-integration block with everything off, for fixtures whose
claims do not involve the reconciler. -/
def sdOff : config.SystemdIntegration :=
  { enable := false,
    services := [],
    restartOnChange := false,
    changeDetection := { enable := false, hashFile := "" },
    errorHandling := { rollbackOnFailure := false, continueOnError := false, maxRetries := 0 } }

/-- A secret whose mode `0666` has the world-write bit set. -/
def secretWW : config.Secret :=
  { path := "/run/secrets/db",
    reference := "op://V/I/f",
    owner := "",
    group := "",
    mode := "0666",
    symlinks := [],
    vars := [],
    services := none,
    template := "" }

def cfgWW : config.Config :=
  { secrets := [secretWW],
    pathTemplate := "",
    defaults := [],
    systemdIntegration := sdOff }

/-- C8 witness: a secret with mode `0666` in an otherwise valid single-secret
manifest is rejected with the world-write violation and the manifest fails
validation. -/
theorem c8_witness :
    validation.isOctalMode "0666" = true ∧
    Nat.land ((validation.parseOctal "0666").getD 0) 2 ≠ 0 ∧
    validation.ValidateConfigStruct envEmpty
      (config.convertToValidationSecrets cfgWW) ≠ .ok () :=
  ⟨by decide, by decide,
    (c8_world_writable_mode_rejected envEmpty cfgWW secretWW (List.mem_singleton.mpr rfl)
      (by decide) (by decide)).2.1⟩

/-! ## C3 — content-hash change detection -/

/-- C3: `hasChanged` reports a change and inserts a fresh record when no
record exists for the path, reports a change and updates the record when the
stored hash differs from the hash of the current content, reports no change
and leaves the store untouched when the hashes match, and its boolean answer
is a function of the store and the file content only — two filesystems whose
file at `path` has the same content but different modification times get the
same answer. -/
theorem c3_hasChanged_content_only (hashFn : List Char → String)
    (fs fs2 : String → Option (List Char × Int)) (hs : systemd.Store)
    (path : String) (content : List Char) (t t2 : Int)
    (hfs : fs path = some (content, t)) (hfs2 : fs2 path = some (content, t2)) :
    (systemd.storeLookup hs path = none →
      systemd.hasChanged hashFn fs hs path =
        .ok (true, systemd.storeInsert hs path ⟨path, hashFn content, t⟩)) ∧
    (∀ r0, systemd.storeLookup hs path = some r0 → r0.hash ≠ hashFn content →
      systemd.hasChanged hashFn fs hs path =
        .ok (true, systemd.storeInsert hs path ⟨path, hashFn content, t⟩)) ∧
    (∀ r0, systemd.storeLookup hs path = some r0 → r0.hash = hashFn content →
      systemd.hasChanged hashFn fs hs path = .ok (false, hs)) ∧
    (systemd.hasChanged hashFn fs hs path).map Prod.fst =
      (systemd.hasChanged hashFn fs2 hs path).map Prod.fst := by
  refine ⟨?_, ?_, ?_, ?_⟩
  · intro hl
    simp [systemd.hasChanged, hfs, hl]
  · intro r0 hl hne
    simp [systemd.hasChanged, hfs, hl, hne]
  · intro r0 hl heq
    simp [systemd.hasChanged, hfs, hl, heq]
  · cases hl : systemd.storeLookup hs path with
    | none => simp [systemd.hasChanged, hfs, hfs2, hl, Except.map]
    | some r0 =>
      by_cases hh : r0.hash = hashFn content <;>
        simp [systemd.hasChanged, hfs, hfs2, hl, hh, Except.map]

/-- The identity content function stands in for SHA-256 in the concrete
checks (the record logic only compares the strings it returns). -/
def hashId : List Char → String := fun c => String.mk c

def fsV1 : String → Option (List Char × Int) := fun p =>
  if p = "/run/s" then some ("v1".data, 5) else none

def fsV1Later : String → Option (List Char × Int) := fun p =>
  if p = "/run/s" then some ("v1".data, 9) else none

/-- C3 witness: first sight of a path is a change and records the hash, and
the boolean answer ignores the modification time. -/
theorem c3_witness :
    systemd.storeLookup [] "/run/s" = none ∧
    systemd.hasChanged hashId fsV1 [] "/run/s" =
      .ok (true, systemd.storeInsert [] "/run/s" ⟨"/run/s", hashId "v1".data, 5⟩) ∧
    (systemd.hasChanged hashId fsV1 [] "/run/s").map Prod.fst =
      (systemd.hasChanged hashId fsV1Later [] "/run/s").map Prod.fst := by
  have h := c3_hasChanged_content_only hashId fsV1 fsV1Later [] "/run/s" "v1".data 5 9
    (by decide) (by decide)
  exact ⟨rfl, h.1 rfl, h.2.2.2⟩

/-! ## C10 — non-positive MaxRetries silently succeeds without dispatch -/

/-- C10: with `MaxRetries ≤ 0` the retry loop body never runs, so
`executeServiceAction` performs no dispatch (and no sleep) at all and
returns Go\x27s `nil` error, reporting success without ever invoking the
service manager. -/
theorem c10_nonpositive_retries_no_dispatch (systemctl : String)
    (oracle : Nat → Option String) (dryRun : Bool) (maxRetries : Int)
    (a : systemd.ServiceAction) (h : maxRetries ≤ 0) :
    systemd.executeServiceAction systemctl oracle dryRun maxRetries a = (none, []) := by
  unfold systemd.executeServiceAction
  rw [Int.toNat_of_nonpos h]
  rfl

/-- A restart action for the concrete checks. -/
def actCaddyRestart : systemd.ServiceAction :=
  { name := "caddy", restart := true, signal := "", after := ["opnix-secrets.service"] }

/-- C10 witness: `maxRetries = -1` with an always-failing dispatcher still
returns success and an empty trace. -/
theorem c10_witness :
    (-1 : Int) ≤ 0 ∧
    systemd.executeServiceAction "systemctl" (fun _ => some "boom") false (-1)
      actCaddyRestart = (none, []) :=
  ⟨by decide, c10_nonpositive_retries_no_dispatch "systemctl" (fun _ => some "boom") false
    (-1) actCaddyRestart (by decide)⟩

/-! ## C4 — bounded retries, linear backoff, per-service failure isolation -/

/-- Dispatch events of a trace (command executions, not sleeps). -/
def isExecEv : systemd.Ev → Bool
  | .exec _ _ => true
  | _ => false

/-- The trace a persistently failing dispatch produces from attempt number
`attempt` for `n` more attempts: exec, sleep 1s, exec, sleep 2s, exec, … —
the backoff before the k-th retry is exactly k seconds. -/
def failTraceFrom (cmd : String) (args : List String) : Nat → Nat → List systemd.Ev
  | _, 0 => []
  | attempt, n + 1 =>
    (if attempt > 0 then [systemd.Ev.sleep attempt] else []) ++
      systemd.Ev.exec cmd args :: failTraceFrom cmd args (attempt + 1) n

def failTrace (cmd : String) (args : List String) (n : Nat) : List systemd.Ev :=
  failTraceFrom cmd args 0 n

theorem execLoop_exec_count (oracle : Nat → Option String) (dryRun : Bool) (cmd : String)
    (args : List String) :
    ∀ (n attempt : Nat) (le : Option String),
      ((systemd.execLoop oracle dryRun cmd args n attempt le).2.countP isExecEv) ≤ n := by
  cases dryRun with
  | true =>
    intro n attempt le
    cases n with
    | zero => simp [systemd.execLoop]
    | succ m =>
      simp [systemd.execLoop, List.countP_append, List.countP_cons, isExecEv]
      split_ifs <;> simp [isExecEv]
  | false =>
    intro n
    induction n with
    | zero => intro attempt le; simp [systemd.execLoop]
    | succ m ih =>
      intro attempt le
      cases ho : oracle attempt with
      | some msg =>
        rcases hE : systemd.execLoop oracle false cmd args m (attempt + 1)
            (some ("command failed: " ++ msg)) with ⟨r, evs⟩
        have hc := ih (attempt + 1) (some ("command failed: " ++ msg))
        rw [hE] at hc
        simp only at hc
        simp [systemd.execLoop, ho, hE, List.countP_append, List.countP_cons, isExecEv]
        split_ifs <;> simp [isExecEv] <;> omega
      | none =>
        simp [systemd.execLoop, ho, List.countP_append, List.countP_cons, isExecEv]
        split_ifs <;> simp [isExecEv]

theorem execLoop_all_fail (oracle : Nat → Option String) (cmd : String)
    (args : List String) (hfail : ∀ k, oracle k ≠ none) :
    ∀ (n attempt : Nat) (le : Option String), n ≠ 0 →
      ∃ err, systemd.execLoop oracle false cmd args n attempt le =
        (some err, failTraceFrom cmd args attempt n) := by
  intro n
  induction n with
  | zero => intro attempt le h; exact absurd rfl h
  | succ m ih =>
    intro attempt le _
    cases ho : oracle attempt with
    | none => exact absurd ho (hfail attempt)
    | some msg =>
      by_cases hm : m = 0
      · subst hm
        refine ⟨"command failed: " ++ msg, ?_⟩
        simp [systemd.execLoop, ho, failTraceFrom]
      · obtain ⟨err, herr⟩ := ih (attempt + 1) (some ("command failed: " ++ msg)) hm
        refine ⟨err, ?_⟩
        simp [systemd.execLoop, ho, herr, failTraceFrom]

theorem runActions_continue (systemctl : String) (oracle : String → Nat → Option String)
    (dryRun : Bool) (eh : config.ErrorHandling) (hco : eh.continueOnError = true) :
    ∀ (l : List (String × systemd.ServiceAction)) (failures : List String),
      systemd.runActions systemctl oracle dryRun eh l failures =
        (.ok (), failures ++ l.filterMap (fun p =>
            match (systemd.executeServiceAction systemctl (oracle p.1) dryRun
                eh.maxRetries p.2).1 with
            | some err => some (p.1 ++ ": " ++ err)
            | none => none),
          l.flatMap (fun p =>
            (systemd.executeServiceAction systemctl (oracle p.1) dryRun eh.maxRetries p.2).2)) := by
  intro l
  induction l with
  | nil => intro failures; simp [systemd.runActions]
  | cons p rest ih =>
    intro failures
    obtain ⟨serviceName, a⟩ := p
    rcases hE : systemd.executeServiceAction systemctl (oracle serviceName) dryRun
        eh.maxRetries a with ⟨r, evs⟩
    cases r with
    | some err => simp [systemd.runActions, hE, hco, ih, List.filterMap_cons]
    | none => simp [systemd.runActions, hE, ih, List.filterMap_cons]

/-- C4: the dispatch loop makes at most `maxRetries` attempts; when every
attempt fails the trace is exactly attempt, 1s sleep, attempt, 2s sleep, …
(a linearly increasing backoff between attempts) and the result is an
error; and with `continueOnError` the reconciler records one failure entry
per persistently failing service while still dispatching every other
deduplicated service. -/
theorem c4_retry_backoff_failure_isolation (systemctl : String) (eh : config.ErrorHandling)
    (hco : eh.continueOnError = true) :
    (∀ (oracle : Nat → Option String) (dryRun : Bool) (mr : Int) (a : systemd.ServiceAction),
      ((systemd.executeServiceAction systemctl oracle dryRun mr a).2.countP isExecEv) ≤
        mr.toNat) ∧
    (∀ (oracle : Nat → Option String) (mr : Int) (a : systemd.ServiceAction),
      (∀ k, oracle k ≠ none) → mr.toNat ≠ 0 →
      ∃ err, systemd.executeServiceAction systemctl oracle false mr a =
        (some err, failTrace (systemd.actionCommand systemctl a).1
          (systemd.actionCommand systemctl a).2 mr.toNat)) ∧
    (∀ (oracle : String → Nat → Option String) (dryRun : Bool)
        (actions : List systemd.ServiceAction),
      systemd.processServiceActions systemctl oracle dryRun eh actions =
        (.ok (), (systemd.dedupActions actions).filterMap (fun p =>
            match (systemd.executeServiceAction systemctl (oracle p.1) dryRun
                eh.maxRetries p.2).1 with
            | some err => some (p.1 ++ ": " ++ err)
            | none => none),
          (systemd.dedupActions actions).flatMap (fun p =>
            (systemd.executeServiceAction systemctl (oracle p.1) dryRun
              eh.maxRetries p.2).2))) := by
  refine ⟨?_, ?_, ?_⟩
  · intro oracle dryRun mr a
    exact execLoop_exec_count oracle dryRun _ _ mr.toNat 0 none
  · intro oracle mr a hfail hmr
    exact execLoop_all_fail oracle _ _ hfail mr.toNat 0 none hmr
  · intro oracle dryRun actions
    unfold systemd.processServiceActions
    rw [runActions_continue systemctl oracle dryRun eh hco (systemd.dedupActions actions) []]
    simp

/-- Error handling with retries and continue-on-error, for concrete checks. -/
def ehRetry : config.ErrorHandling :=
  { rollbackOnFailure := false, continueOnError := true, maxRetries := 3 }

/-- A reload action for a second service. -/
def actPgReload : systemd.ServiceAction :=
  { name := "postgresql", restart := false, signal := "", after := ["opnix-secrets.service"] }

/-- A dispatcher that always fails for caddy and always succeeds for
postgresql. -/
def oracleCaddyFails : String → Nat → Option String :=
  fun serviceName _ => if serviceName = "caddy" then some "boom" else none

/-- C4 witness: with three retries, caddy fails three times with sleeps of
1s and 2s between the attempts and is the only recorded failure, while
postgresql is still dispatched and succeeds. -/
theorem c4_witness :
    systemd.processServiceActions "systemctl" oracleCaddyFails false ehRetry
      [actCaddyRestart, actPgReload] =
      (.ok (), ["caddy: command failed: boom"],
        [systemd.Ev.exec "systemctl" ["restart", "caddy"], systemd.Ev.sleep 1,
         systemd.Ev.exec "systemctl" ["restart", "caddy"], systemd.Ev.sleep 2,
         systemd.Ev.exec "systemctl" ["restart", "caddy"],
         systemd.Ev.exec "systemctl" ["reload", "postgresql"]]) := by
  rw [(c4_retry_backoff_failure_isolation "systemctl" ehRetry rfl).2.2 oracleCaddyFails false
    [actCaddyRestart, actPgReload]]
  decide

/-! ## C1 — restartOnChange=false does not silence the reconciler -/

theorem extractFromList_restart (roc : Bool) :
    ∀ (xs : List validation.SVal) (a : systemd.ServiceAction),
      a ∈ systemd.extractFromList roc xs → a.restart = roc ∧ a.signal = "" := by
  intro xs
  induction xs with
  | nil => intro a ha; simp [systemd.extractFromList] at ha
  | cons x rest ih =>
    intro a ha
    cases x with
    | str s =>
      rcases List.mem_cons.mp (by simpa [systemd.extractFromList] using ha) with he | hm
      · subst he; exact ⟨rfl, rfl⟩
      · exact ih a hm
    | boolv b => exact ih a (by simpa [systemd.extractFromList] using ha)
    | arr ys => exact ih a (by simpa [systemd.extractFromList] using ha)
    | obj fs => exact ih a (by simpa [systemd.extractFromList] using ha)
    | other => exact ih a (by simpa [systemd.extractFromList] using ha)

/-- C1 (amended): the reconciler is a guaranteed no-op only when
`systemdIntegration.enable` is false.  When the global `restartOnChange` is
false, a changed secret with a flat service list still yields service
actions — with `Restart=false` and no signal — and each such action still
dispatches a `systemctl reload` to the service manager. -/
theorem c1_restart_on_change_scope (cfg : config.SystemdIntegration) :
    (cfg.enable = false →
      ∀ systemctl oracle dryRun hashFn fs store0 secrets secretPaths,
        systemd.ProcessSecretChanges cfg systemctl oracle dryRun hashFn fs store0 secrets
          secretPaths = (.ok (), [], [], store0)) ∧
    (cfg.restartOnChange = false →
      ∀ (s : config.Secret) secretName xs acts,
        s.services = some (.arr xs) →
        systemd.ExtractServiceActions cfg s secretName = .ok acts →
        ∀ a ∈ acts, a.restart = false ∧ a.signal = "" ∧
          ∀ systemctl, systemd.actionCommand systemctl a = (systemctl, ["reload", a.name])) := by
  constructor
  · intro h systemctl oracle dryRun hashFn fs store0 secrets secretPaths
    simp [systemd.ProcessSecretChanges, h]
  · intro h s secretName xs acts hsv hex a ha
    rw [systemd.ExtractServiceActions, hsv] at hex
    have hacts : acts = systemd.extractFromList cfg.restartOnChange xs := by
      exact (Except.ok.inj hex).symm
    subst hacts
    obtain ⟨hr, hsg⟩ := extractFromList_restart cfg.restartOnChange xs a ha
    rw [h] at hr
    refine ⟨hr, hsg, fun systemctl => ?_⟩
    unfold systemd.actionCommand
    rw [hsg, hr]
    simp

/-- The integration config of the counterexample: enabled, detection off,
`restartOnChange = false`. -/
def cfgNoRestart : config.SystemdIntegration :=
  { enable := true,
    services := [],
    restartOnChange := false,
    changeDetection := { enable := false, hashFile := "" },
    errorHandling := { rollbackOnFailure := false, continueOnError := false, maxRetries := 1 } }

/-- A changed secret with a flat `services: ["caddy"]` list. -/
def secretCaddyFlat : config.Secret :=
  { path := "/run/secrets/db",
    reference := "op://V/I/f",
    owner := "",
    group := "",
    mode := "",
    symlinks := [],
    vars := [],
    services := some (.arr [.str "caddy"]),
    template := "" }

/-- C1 counterexample: with `restartOnChange = false` the reconciler still
dispatches a reload of caddy to the service manager, refuting the claim
that no service action executes at all. -/
theorem c1_counterexample :
    cfgNoRestart.restartOnChange = false ∧
    systemd.ProcessSecretChanges cfgNoRestart "systemctl" (fun _ _ => none) false hashId
      (fun _ => none) none [secretCaddyFlat] [] =
      (.ok (), [], [systemd.Ev.exec "systemctl" ["reload", "caddy"]], none) :=
  ⟨rfl, by decide⟩

/-- C1 witness: the amended theorem applied concretely — a disabled
integration is a strict no-op, and with `restartOnChange = false` the flat
caddy action is a reload dispatch. -/
theorem c1_witness :
    sdOff.enable = false ∧
    systemd.ProcessSecretChanges sdOff "systemctl" (fun _ _ => none) false hashId
      (fun _ => none) none [secretCaddyFlat] [] = (.ok (), [], [], none) ∧
    cfgNoRestart.restartOnChange = false := by
  refine ⟨rfl, ?_, rfl⟩
  exact (c1_restart_on_change_scope sdOff).1 rfl "systemctl" (fun _ _ => none) false hashId
    (fun _ => none) none [secretCaddyFlat] []

/-! ## C9 — the processor substitution loop diverges on self-referential
placeholders -/

/-- The self-referential variable map: `a` expands to its own placeholder. -/
def loopVars : List (String × String) := [("a", "\x7ba\x7d")]

/-- The template `\x7ba\x7d` whose expansion under `loopVars` never loses its
braces. -/
def loopTemplate : String := "\x7ba\x7d"

theorem substituteVariablesF_loop_step (n : Nat) :
    secrets.substituteVariablesF (mergeVars [] loopVars) "s" (n + 1) loopTemplate.data =
      secrets.substituteVariablesF (mergeVars [] loopVars) "s" n loopTemplate.data := rfl

/-- C9: on the template `\x7ba\x7d` with `a = "\x7ba\x7d"` the fuelled model of
`Processor.substituteVariables` returns no result for any amount of fuel —
each pass of the Go loop replaces `\x7ba\x7d` with itself, so the source loop
never terminates, refuting the claimed termination for every input. -/
theorem c9_substitution_divergence (fuel : Nat) :
    secrets.substituteVariables fuel [] loopVars "s" loopTemplate = none := by
  unfold secrets.substituteVariables
  induction fuel with
  | zero => rfl
  | succ n ih => rw [substituteVariablesF_loop_step]; exact ih

/-- C9 witness: the divergence at a concrete fuel bound. -/
theorem c9_witness : secrets.substituteVariables 7 [] loopVars "s" loopTemplate = none :=
  c9_substitution_divergence 7

/-! ## C7 — traversal and metacharacter checks on substituted values -/

theorem validateVariableValue_bad (v name sn : String)
    (hbad : goContains v ".." = true ∨
      ∃ c ∈ validation.dangerousChars, goContains v c = true) :
    ∃ e, validation.validateVariableValue v name sn = .error e := by
  unfold validation.validateVariableValue
  by_cases h2 : goContains v ".." = true
  · simp only [h2, if_true]
    exact ⟨_, rfl⟩
  · rcases hbad with h | ⟨c, hc, hcc⟩
    · contradiction
    · simp only [h2, Bool.false_eq_true, if_false]
      cases hf : validation.dangerousChars.find? (fun c => goContains v c) with
      | none =>
        rw [List.find?_eq_none] at hf
        exact absurd hcc (by simpa using hf c hc)
      | some c2 => exact ⟨_, rfl⟩

theorem substLoop_err (allVars : List (String × String)) (sn tt name v : String)
    (hv : lookupA allVars name = some v)
    (hbad : ∀ u, validation.validateVariableValue v name sn ≠ .ok u) :
    ∀ (ms : List String) (result : String), name ∈ ms →
      ∃ e, validation.substLoop allVars sn tt ms result = .error e := by
  intro ms
  induction ms with
  | nil => intro result h; simp at h
  | cons m rest ih =>
    intro result hmem
    cases hl : lookupA allVars m with
    | none =>
      simp only [validation.substLoop, hl]
      exact ⟨_, rfl⟩
    | some value =>
      cases hvv : validation.validateVariableValue value m sn with
      | error e =>
        simp only [validation.substLoop, hl, hvv]
        exact ⟨e, rfl⟩
      | ok u =>
        rcases List.mem_cons.mp hmem with he | hm
        · subst he
          rw [hl] at hv
          have hveq : value = v := Option.some.inj hv
          subst hveq
          exact absurd hvv (hbad u)
        · obtain ⟨e, he2⟩ := ih (goReplaceAll result ("\x7b" ++ m ++ "\x7d") value) hm
          simp only [validation.substLoop, hl, hvv]
          exact ⟨e, he2⟩

/-- C7 (amended): the config-load validator rejects every value substituted
for a template placeholder that contains `..` or one of the shell
metacharacters, but the processor\x27s own substitution re-checks only `..` —
its `validateVariableValue` accepts a value iff it is `..`-free, so a
metacharacter value reaching the processor (e.g. through a nested
placeholder) produces a path instead of an error. -/
theorem c7_validator_rejects_processor_only_dotdot :
    (∀ (templateText : String) (vars defaults : List (String × String))
        (secretName name v : String),
      name ∈ validation.scanVars templateText →
      lookupA (mergeVars defaults vars) name = some v →
      (goContains v ".." = true ∨
        ∃ c ∈ validation.dangerousChars, goContains v c = true) →
      ∃ e, validation.substituteVariables templateText vars defaults secretName = .error e) ∧
    (∀ v n s, secrets.validateVariableValue v n s = .ok () ↔ goContains v ".." = false) := by
  constructor
  · intro templateText vars defaults secretName name v hmem hv hbad
    obtain ⟨e0, he0⟩ := validateVariableValue_bad v name secretName hbad
    have hbad2 : ∀ u, validation.validateVariableValue v name secretName ≠ .ok u := by
      intro u hc
      rw [he0] at hc
      exact Except.noConfusion hc
    exact substLoop_err (mergeVars defaults vars) secretName templateText name v hv hbad2
      (validation.scanVars templateText) templateText hmem
  · intro v n s
    by_cases h : goContains v ".." = true <;>
      simp [secrets.validateVariableValue, h]

/-- A secret whose path resolves cleanly for the validator but whose nested
placeholder expansion makes the processor produce a path containing `;`. -/
def secretNested : validation.SecretData :=
  { path := "\x7ba\x7d",
    reference := "op://V/I/f",
    owner := "",
    group := "",
    mode := "0600",
    symlinks := [],
    vars := [("a", "\x7bb\x7d"), ("b", ";")],
    services := none,
    pathTemplate := "",
    defaults := [] }

/-- C7 counterexample: the full pipeline accepts a manifest whose processor
path resolution substitutes the metacharacter value `;` and yields the
output path `secrets/;` instead of failing. -/
theorem c7_counterexample :
    validation.ValidateConfigStruct envEmpty [secretNested] = .ok () ∧
    secrets.substituteVariables 10 [] [("a", "\x7bb\x7d"), ("b", ";")] "s" "\x7ba\x7d" =
      some (.ok ";") ∧
    goContains ";" ";" = true := by
  refine ⟨by decide, by decide, by decide⟩

/-- C7 witness: the validator half applied at a concrete metacharacter
value. -/
theorem c7_witness :
    ("a" ∈ validation.scanVars "\x7ba\x7d") ∧
    (∃ e, validation.substituteVariables "\x7ba\x7d" [("a", ";")] [] "s" = .error e) :=
  ⟨by decide,
    c7_validator_rejects_processor_only_dotdot.1 "\x7ba\x7d" [("a", ";")] [] "s" "a" ";"
      (by decide) (by decide) (Or.inr ⟨";", by decide, by decide⟩)⟩

/-! ## C5 — behaviour on a missing or unreadable bearer token -/

/-- C5 (amended): when no token can be obtained, the Go `secret` command
itself fails — `GetToken` turns an unreadable token file into a token error
(after the prerequisites merely logged a warning), and the failed run makes
no vault call and writes nothing.  Graceful degradation exists only in the
NixOS module\x27s boot unit and only for a missing token file; an unreadable
token file fails the unit. -/
theorem c5_token_failure_modes :
    (∀ tokenFile msg, tokenFile ≠ "" →
      onepass.GetToken "" tokenFile (.error msg) =
        .error (.tokenErr ("Failed to read token file: " ++ msg) tokenFile)) ∧
    (∀ r n, nixos.bootScript false r n = .skipSuccess) ∧
    (∀ n, nixos.bootScript true false n = .fail) ∧
    (∀ fuel env renv vault render writableDir configFile outputDir tokenFile c r tr,
      renv.envToken = "" → tokenFile ≠ "" → (∃ m, renv.readToken = .error m) →
      cmd.runSecretCommand fuel env renv vault render writableDir configFile outputDir
        tokenFile c = some (r, tr) →
      (∃ e, r = .error e) ∧ tr.vaultCalls = [] ∧ tr.writes = []) := by
  have hget : ∀ tokenFile msg, tokenFile ≠ "" →
      onepass.GetToken "" tokenFile (.error msg) =
        .error (.tokenErr ("Failed to read token file: " ++ msg) tokenFile) := by
    intro tokenFile msg htf
    unfold onepass.GetToken
    rw [if_neg (by simp), if_pos htf]
  refine ⟨hget, fun r n => rfl, fun n => rfl, ?_⟩
  intro fuel env renv vault render writableDir configFile outputDir tokenFile c r tr
    henv htf hm h
  obtain ⟨m, hrt⟩ := hm
  unfold cmd.runSecretCommand at h
  split_ifs at h
  · simp only [Option.some.injEq, Prod.mk.injEq] at h
    obtain ⟨hr, htr⟩ := h
    subst htr
    exact ⟨⟨_, hr.symm⟩, rfl, rfl⟩
  · simp only [Option.some.injEq, Prod.mk.injEq] at h
    obtain ⟨hr, htr⟩ := h
    subst htr
    exact ⟨⟨_, hr.symm⟩, rfl, rfl⟩
  · cases hL : config.Load env c with
    | error e =>
      rw [hL] at h
      simp only [Option.some.injEq, Prod.mk.injEq] at h
      obtain ⟨hr, htr⟩ := h
      subst htr
      exact ⟨⟨_, hr.symm⟩, rfl, rfl⟩
    | ok cfg =>
      rw [hL] at h
      have hnc : onepass.NewClient renv.envToken tokenFile renv.readToken renv.sdkInitOk =
          .error (.tokenErr ("Failed to read token file: " ++ m) tokenFile) := by
        unfold onepass.NewClient
        rw [henv, hrt, hget tokenFile m htf]
      rw [hnc] at h
      simp only [Option.some.injEq, Prod.mk.injEq] at h
      obtain ⟨hr, htr⟩ := h
      subst htr
      exact ⟨⟨_, hr.symm⟩, rfl, rfl⟩

/-- A well-formed single-secret configuration. -/
def secretOk : config.Secret :=
  { path := "/run/secrets/db",
    reference := "op://V/I/f",
    owner := "",
    group := "",
    mode := "0600",
    symlinks := [],
    vars := [],
    services := none,
    template := "" }

def cfgOk : config.Config :=
  { secrets := [secretOk],
    pathTemplate := "",
    defaults := [],
    systemdIntegration := sdOff }

/-- The run environment of a boot with an unreadable token file and no
environment token. -/
def renvNoToken : cmd.RunEnv :=
  { configExists := true,
    outputWritable := true,
    envToken := "",
    tokenStatOk := false,
    readToken := .error "permission denied",
    sdkInitOk := true }

/-- C5 counterexample: with an unreadable token file and no environment
token, the `opnix secret` run returns a token error — it does not exit with
success — and the NixOS boot unit also fails when the token file exists but
is unreadable. -/
theorem c5_counterexample :
    cmd.runSecretCommand 10 envEmpty renvNoToken (fun _ => .ok "v") (fun _ v => some v)
      (fun _ => true) "secrets.json" "secrets" "/etc/opnix-token" cfgOk =
      some (.error (.tokenErr "Failed to read token file: permission denied"
        "/etc/opnix-token"), ⟨[], [], []⟩) ∧
    nixos.bootScript true false true = .fail := by
  exact ⟨by decide, rfl⟩

/-- C5 witness: the amended failure modes at concrete inputs — a missing
token file skips gracefully, an unreadable one fails the unit, and
`GetToken` propagates the read error. -/
theorem c5_witness :
    nixos.bootScript false true true = .skipSuccess ∧
    nixos.bootScript true false true = .fail ∧
    onepass.GetToken "" "/etc/opnix-token" (.error "permission denied") =
      .error (.tokenErr "Failed to read token file: permission denied" "/etc/opnix-token") :=
  ⟨c5_token_failure_modes.2.1 true true, c5_token_failure_modes.2.2.1 true,
    c5_token_failure_modes.1 "/etc/opnix-token" "permission denied" (by decide)⟩

/-! ## C2 — duplicate resolved paths fail validation before any vault call -/

theorem validatePath_dup (p sn earlier : String) (seen : List (String × String))
    (hl : lookupA seen p = some earlier) (hne : p ≠ "") (hdd : goContains p ".." = false) :
    validation.validatePath p sn seen =
      .error (.configValidation (sn ++ ".path") p
        ("Duplicate path (already used by " ++ earlier ++ ")")
        ["Each secret must have a unique path",
         "Change the path to something unique",
         "Current conflicting path: " ++ p]) := by
  unfold validation.validatePath
  rw [if_neg hne, if_neg (by simp [hdd]), hl]

theorem validatePath_err_of_claimed (p sn : String) (seen : List (String × String))
    (earlier : String) (hl : lookupA seen p = some earlier) :
    ∃ e, validation.validatePath p sn seen = .error e := by
  unfold validation.validatePath
  by_cases h1 : p = ""
  · rw [if_pos h1]
    exact ⟨_, rfl⟩
  · rw [if_neg h1]
    by_cases h2 : goContains p ".." = true
    · rw [if_pos h2]
      exact ⟨_, rfl⟩
    · rw [if_neg h2, hl]
      exact ⟨_, rfl⟩

theorem validatePath_ok_claims (p sn : String) (seen seen2 : List (String × String))
    (h : validation.validatePath p sn seen = .ok seen2) :
    lookupA seen2 p = some sn ∧
      (∀ k v, lookupA seen k = some v → lookupA seen2 k = some v) := by
  by_cases hp : p = ""
  · simp [validation.validatePath, hp] at h
  · by_cases hdd : goContains p ".." = true
    · simp [validation.validatePath, hp, hdd] at h
    · cases hl : lookupA seen p with
      | some e => simp [validation.validatePath, hp, hdd, hl] at h
      | none =>
        have hbase : seen2 = upsertA seen p sn := by
          by_cases habs : goHasPre "/" p = true
          · cases hva : validation.validateAbsolutePath p sn with
            | error e => simp [validation.validatePath, hp, hdd, hl, habs, hva] at h
            | ok u =>
              simp [validation.validatePath, hp, hdd, hl, habs, hva] at h
              exact h.symm
          · simp [validation.validatePath, hp, hdd, hl, habs] at h
            exact h.symm
        subst hbase
        exact ⟨lookupA_upsert_self seen p sn hl,
          fun k v hk => lookupA_upsert_preserve seen k p v sn hl hk⟩

theorem validateSymlinksFrom_preserve (sn : String) :
    ∀ (links : List String) (i : Nat) (seen seen3 : List (String × String)),
      validation.validateSymlinksFrom sn links i seen = .ok seen3 →
      ∀ k v, lookupA seen k = some v → lookupA seen3 k = some v := by
  intro links
  induction links with
  | nil =>
    intro i seen seen3 h k v hk
    simp [validation.validateSymlinksFrom] at h
    rwa [← h]
  | cons s rest ih =>
    intro i seen seen3 h k v hk
    by_cases h1 : s = ""
    · simp [validation.validateSymlinksFrom, h1] at h
    · by_cases h2 : goContains s ".." = true
      · simp [validation.validateSymlinksFrom, h1, h2] at h
      · cases hva : (if goHasPre "/" s then
            validation.validateAbsolutePath s (sn ++ ".symlinks[" ++ toString i ++ "]")
          else Except.ok ()) with
        | error e => simp [validation.validateSymlinksFrom, h1, h2, hva] at h
        | ok u =>
          cases hl : lookupA seen s with
          | some e2 => simp [validation.validateSymlinksFrom, h1, h2, hva, hl] at h
          | none =>
            have hrec : validation.validateSymlinksFrom sn rest (i + 1)
                (upsertA seen s (sn ++ " (symlink)")) = .ok seen3 := by
              simpa [validation.validateSymlinksFrom, h1, h2, hva, hl] using h
            exact ih (i + 1) _ seen3 hrec k v
              (lookupA_upsert_preserve seen k s v (sn ++ " (symlink)") hl hk)

theorem validateSecret_ok_facts (env : validation.Env) (s : validation.SecretData)
    (sn : String) (seen seen3 : List (String × String))
    (h : validation.validateSecret env s sn seen = .ok seen3) :
    (∀ k v, lookupA seen k = some v → lookupA seen3 k = some v) ∧
    (∀ p, validation.resolvePath s.path s.pathTemplate s.vars s.defaults sn = .ok p →
      lookupA seen3 p = some sn) := by
  unfold validation.validateSecret at h
  split at h
  · exact absurd h (by simp)
  · next u h1 =>
    split at h
    · exact absurd h (by simp)
    · next fp h2 =>
      split at h
      · exact absurd h (by simp)
      · next seenB h3 =>
        split at h
        · exact absurd h (by simp)
        · next seenC h4 =>
          split at h
          · exact absurd h (by simp)
          · next u2 h5 =>
            split at h
            · exact absurd h (by simp)
            · next u3 h6 =>
              have hC : seenC = seen3 := Except.ok.inj h
              subst hC
              unfold validation.validateSymlinks at h4
              obtain ⟨hclaim, hpres⟩ := validatePath_ok_claims fp sn seen seenB h3
              have hsym := validateSymlinksFrom_preserve sn s.symlinks 0 seenB seenC h4
              constructor
              · exact fun k v hk => hsym k v (hpres k v hk)
              · intro p hrp
                have hfp : fp = p := by
                  rw [hrp] at h2
                  exact (Except.ok.inj h2).symm
                subst hfp
                exact hsym fp sn hclaim

theorem validateSecret_ne_ok_of_claimed (env : validation.Env) (s : validation.SecretData)
    (sn : String) (seen : List (String × String)) (p earlier : String)
    (hrp : validation.resolvePath s.path s.pathTemplate s.vars s.defaults sn = .ok p)
    (hl : lookupA seen p = some earlier) :
    ∀ seen2, validation.validateSecret env s sn seen ≠ .ok seen2 := by
  intro seen2 h
  unfold validation.validateSecret at h
  split at h
  · exact absurd h (by simp)
  · next u h1 =>
    split at h
    · exact absurd h (by simp)
    · next fp h2 =>
      have hfp : fp = p := by
        rw [hrp] at h2
        exact (Except.ok.inj h2).symm
      subst hfp
      obtain ⟨e, he⟩ := validatePath_err_of_claimed fp sn seen earlier hl
      rw [he] at h
      exact absurd h (by simp)

theorem validateSecretsFrom_ne_ok_claimed (env : validation.Env) :
    ∀ (l : List validation.SecretData) (k : Nat) (seen : List (String × String))
      (b : Nat) (hb : b < l.length) (p earlier : String),
      validation.resolvePath (l.get ⟨b, hb⟩).path (l.get ⟨b, hb⟩).pathTemplate
        (l.get ⟨b, hb⟩).vars (l.get ⟨b, hb⟩).defaults
        ("secret[" ++ toString (k + b) ++ "]") = .ok p →
      lookupA seen p = some earlier →
      validation.validateSecretsFrom env k seen l ≠ .ok () := by
  intro l
  induction l with
  | nil =>
    intro k seen b hb
    exact absurd hb (by simp)
  | cons s rest ih =>
    intro k seen b hb p earlier hrp hl h
    unfold validation.validateSecretsFrom at h
    split at h
    · exact absurd h (by simp)
    · next seen2 heq =>
      cases b with
      | zero =>
        rw [Nat.add_zero] at hrp
        exact validateSecret_ne_ok_of_claimed env s _ seen p earlier hrp hl seen2 heq
      | succ b2 =>
        have hl2 : lookupA seen2 p = some earlier :=
          (validateSecret_ok_facts env s _ seen seen2 heq).1 p earlier hl
        have hb2 : b2 < rest.length := by simpa using hb
        have hget : (s :: rest).get ⟨b2 + 1, hb⟩ = rest.get ⟨b2, hb2⟩ := rfl
        rw [hget, show k + (b2 + 1) = (k + 1) + b2 from by omega] at hrp
        exact ih (k + 1) seen2 b2 hb2 p earlier hrp hl2 h

theorem validateSecretsFrom_ne_ok_dup (env : validation.Env) :
    ∀ (l : List validation.SecretData) (k : Nat) (seen : List (String × String))
      (a b : Nat) (hab : a < b) (hb : b < l.length) (p : String),
      validation.resolvePath (l.get ⟨a, lt_trans hab hb⟩).path
        (l.get ⟨a, lt_trans hab hb⟩).pathTemplate (l.get ⟨a, lt_trans hab hb⟩).vars
        (l.get ⟨a, lt_trans hab hb⟩).defaults ("secret[" ++ toString (k + a) ++ "]") = .ok p →
      validation.resolvePath (l.get ⟨b, hb⟩).path (l.get ⟨b, hb⟩).pathTemplate
        (l.get ⟨b, hb⟩).vars (l.get ⟨b, hb⟩).defaults
        ("secret[" ++ toString (k + b) ++ "]") = .ok p →
      validation.validateSecretsFrom env k seen l ≠ .ok () := by
  intro l
  induction l with
  | nil =>
    intro k seen a b hab hb
    exact absurd hb (by simp)
  | cons s rest ih =>
    intro k seen a b hab hb p hrpa hrpb h
    unfold validation.validateSecretsFrom at h
    split at h
    · exact absurd h (by simp)
    · next seen2 heq =>
      cases a with
      | zero =>
        rw [Nat.add_zero] at hrpa
        have hclaim : lookupA seen2 p = some ("secret[" ++ toString k ++ "]") :=
          (validateSecret_ok_facts env s _ seen seen2 heq).2 p hrpa
        cases b with
        | zero => exact absurd hab (by simp)
        | succ b2 =>
          have hb2 : b2 < rest.length := by simpa using hb
          have hget : (s :: rest).get ⟨b2 + 1, hb⟩ = rest.get ⟨b2, hb2⟩ := rfl
          rw [hget, show k + (b2 + 1) = (k + 1) + b2 from by omega] at hrpb
          exact validateSecretsFrom_ne_ok_claimed env rest (k + 1) seen2 b2 hb2 p _
            hrpb hclaim h
      | succ a2 =>
        cases b with
        | zero => exact absurd hab (by simp)
        | succ b2 =>
          have hab2 : a2 < b2 := by omega
          have hb2 : b2 < rest.length := by simpa using hb
          have hgetb : (s :: rest).get ⟨b2 + 1, hb⟩ = rest.get ⟨b2, hb2⟩ := rfl
          have hgeta : (s :: rest).get ⟨a2 + 1, lt_trans hab hb⟩ =
              rest.get ⟨a2, lt_trans hab2 hb2⟩ := rfl
          rw [hgeta, show k + (a2 + 1) = (k + 1) + a2 from by omega] at hrpa
          rw [hgetb, show k + (b2 + 1) = (k + 1) + b2 from by omega] at hrpb
          exact ih (k + 1) seen2 a2 b2 hab2 hb2 p hrpa hrpb h

theorem validateSymlinksFrom_ne_ok_claimed (sn : String) :
    ∀ (links : List String) (i : Nat) (seen : List (String × String)) (s earlier : String),
      s ∈ links → lookupA seen s = some earlier →
      ∀ seen3, validation.validateSymlinksFrom sn links i seen ≠ .ok seen3 := by
  intro links
  induction links with
  | nil => intro i seen s earlier hmem; simp at hmem
  | cons t rest ih =>
    intro i seen s earlier hmem hl seen3 h
    by_cases h1 : t = ""
    · simp [validation.validateSymlinksFrom, h1] at h
    · by_cases h2 : goContains t ".." = true
      · simp [validation.validateSymlinksFrom, h1, h2] at h
      · cases hva : (if goHasPre "/" t then
            validation.validateAbsolutePath t (sn ++ ".symlinks[" ++ toString i ++ "]")
          else Except.ok ()) with
        | error e => simp [validation.validateSymlinksFrom, h1, h2, hva] at h
        | ok u =>
          cases hlt : lookupA seen t with
          | some e2 => simp [validation.validateSymlinksFrom, h1, h2, hva, hlt] at h
          | none =>
            have hts : t ≠ s := by
              intro he
              rw [he, hl] at hlt
              exact Option.noConfusion hlt
            have hrec : validation.validateSymlinksFrom sn rest (i + 1)
                (upsertA seen t (sn ++ " (symlink)")) = .ok seen3 := by
              simpa [validation.validateSymlinksFrom, h1, h2, hva, hlt] using h
            have hmem2 : s ∈ rest := by
              rcases List.mem_cons.mp hmem with he | hm
              · exact absurd he.symm hts
              · exact hm
            exact ih (i + 1) _ s earlier hmem2
              (lookupA_upsert_preserve seen s t earlier (sn ++ " (symlink)") hlt hl)
              seen3 hrec

/-- C2: when two secrets of a manifest resolve (with the validator\x27s own
resolver) to the same output path, loading the configuration fails and the
run performs no vault call and writes no file; whenever a path is already
claimed in the seen-paths map, the later claimant is rejected with the
duplicate-path error that names the earlier claimant, who keeps the path;
and a symlink that repeats an already-claimed path likewise makes the
symlink pass fail. -/
theorem c2_duplicate_paths_fail_fast (env : validation.Env) (c : config.Config)
    (i j : Nat) (hij : i < j) (hj : j < (config.convertToValidationSecrets c).length)
    (p : String)
    (hrpi : validation.resolvePath
      ((config.convertToValidationSecrets c).get ⟨i, lt_trans hij hj⟩).path
      ((config.convertToValidationSecrets c).get ⟨i, lt_trans hij hj⟩).pathTemplate
      ((config.convertToValidationSecrets c).get ⟨i, lt_trans hij hj⟩).vars
      ((config.convertToValidationSecrets c).get ⟨i, lt_trans hij hj⟩).defaults
      ("secret[" ++ toString i ++ "]") = .ok p)
    (hrpj : validation.resolvePath
      ((config.convertToValidationSecrets c).get ⟨j, hj⟩).path
      ((config.convertToValidationSecrets c).get ⟨j, hj⟩).pathTemplate
      ((config.convertToValidationSecrets c).get ⟨j, hj⟩).vars
      ((config.convertToValidationSecrets c).get ⟨j, hj⟩).defaults
      ("secret[" ++ toString j ++ "]") = .ok p) :
    validation.ValidateConfigStruct env (config.convertToValidationSecrets c) ≠ .ok () ∧
    (∀ fuel renv vault render writableDir configFile outputDir tokenFile r tr,
      cmd.runSecretCommand fuel env renv vault render writableDir configFile outputDir
        tokenFile c = some (r, tr) →
      (∃ e, r = .error e) ∧ tr.vaultCalls = [] ∧ tr.writes = []) ∧
    (∀ q sn earlier seen, lookupA seen q = some earlier → q ≠ "" →
      goContains q ".." = false →
      validation.validatePath q sn seen =
        .error (.configValidation (sn ++ ".path") q
          ("Duplicate path (already used by " ++ earlier ++ ")")
          ["Each secret must have a unique path",
           "Change the path to something unique",
           "Current conflicting path: " ++ q])) ∧
    (∀ sn links k0 seen s earlier, s ∈ links → lookupA seen s = some earlier →
      ∀ seen3, validation.validateSymlinksFrom sn links k0 seen ≠ .ok seen3) := by
  have hval : validation.ValidateConfigStruct env (config.convertToValidationSecrets c) ≠
      .ok () := by
    unfold validation.ValidateConfigStruct
    split_ifs with hemp
    · simp
    · have h0i : 0 + i = i := Nat.zero_add i
      have h0j : 0 + j = j := Nat.zero_add j
      refine validateSecretsFrom_ne_ok_dup env (config.convertToValidationSecrets c) 0 []
        i j hij hj p ?_ ?_
      · rw [h0i]; exact hrpi
      · rw [h0j]; exact hrpj
  refine ⟨hval, ?_, ?_, ?_⟩
  · intro fuel renv vault render writableDir configFile outputDir tokenFile r tr h
    exact run_no_calls_of_invalid env c hval fuel renv vault render writableDir configFile
      outputDir tokenFile r tr h
  · intro q sn earlier seen hl hq hdd
    exact validatePath_dup q sn earlier seen hl hq hdd
  · intro sn links k0 seen s earlier hmem hl seen3
    exact validateSymlinksFrom_ne_ok_claimed sn links k0 seen s earlier hmem hl seen3

/-- A second secret claiming the same output path as `secretOk`. -/
def secretOkDup : config.Secret :=
  { path := "/run/secrets/db",
    reference := "op://V/I/g",
    owner := "",
    group := "",
    mode := "0600",
    symlinks := [],
    vars := [],
    services := none,
    template := "" }

def cfgDup : config.Config :=
  { secrets := [secretOk, secretOkDup],
    pathTemplate := "",
    defaults := [],
    systemdIntegration := sdOff }

/-- C2 witness: a two-secret manifest whose secrets both resolve to
`/run/secrets/db` fails validation, and the duplicate-path error for the
later claimant names the earlier one. -/
theorem c2_witness :
    validation.ValidateConfigStruct envEmpty
      (config.convertToValidationSecrets cfgDup) ≠ .ok () ∧
    validation.validatePath "/run/secrets/db" "secret[1]" [("/run/secrets/db", "secret[0]")] =
      .error (.configValidation ("secret[1]" ++ ".path") "/run/secrets/db"
        ("Duplicate path (already used by " ++ "secret[0]" ++ ")")
        ["Each secret must have a unique path",
         "Change the path to something unique",
         "Current conflicting path: " ++ "/run/secrets/db"]) := by
  have h := c2_duplicate_paths_fail_fast envEmpty cfgDup 0 1 (by decide) (by decide)
    "/run/secrets/db" (by decide) (by decide)
  exact ⟨h.1, h.2.2.1 "/run/secrets/db" "secret[1]" "secret[0]"
    [("/run/secrets/db", "secret[0]")] (by decide) (by decide) (by decide)⟩

end Opnix
